import Mathlib

/-!
# Verification of the n8n-mcp configuration-validation and search-ranking core

This file gives a shallow embedding, in Lean 4, of the node-configuration
validation engine and the multi-strategy search/ranking engine of the
n8n-mcp repository, and proves (or refutes) a fixed list of claims about
them.

Conventions of the embedding:

* JavaScript strings are modelled as Lean `String` (a structure over
  `List Char`); all string operations used by the code (`trim`,
  `toLowerCase`, `split(/\s+/)`, `includes`, `startsWith`, `endsWith`,
  `slice`) are re-implemented on `List Char` with JS semantics so that
  proofs can proceed by list induction.  ASCII behaviour is modelled
  exactly; the embedding uses `Char.isWhitespace` for the `\s` class and
  per-character ASCII lowercasing for `toLowerCase`.
* JSON values (`Record<string, unknown>` results, configs) are modelled by
  the inductive type `J`.  JavaScript object literals become association
  lists whose lookup returns the first binding; spread overriding is
  modelled by append order.
* Database access (`db.prepare(...).all(...)`) is modelled by abstract
  fetch functions bundled in a record; every theorem quantifies over them.
* JavaScript numbers are modelled by `Nat`/`Int`/`Rat` as appropriate: the
  relevance scores are integers, the fuzzy-similarity scores are exact
  rationals.
* `throw new Error(msg)` becomes `Except.error msg`; functions that cannot
  throw are total.
* Side-effect-only calls in the source (`logger.*`, `telemetry.*`) have no
  observable effect on the returned values and are omitted.
-/

/-! ## JavaScript-style string primitives -/

/-- JS `\s` (whitespace class), restricted to the ASCII whitespace
characters that `Char.isWhitespace` recognises. -/
def isWsChar (c : Char) : Bool := c.isWhitespace

/-- JS `String.prototype.trim`: drop whitespace from both ends. -/
def jsTrimList (l : List Char) : List Char :=
  ((l.dropWhile isWsChar).reverse.dropWhile isWsChar).reverse

/-- JS `String.prototype.trim` on `String`. -/
def jsTrim (s : String) : String := ⟨jsTrimList s.data⟩

/-- JS `String.prototype.toLowerCase` (ASCII). -/
def jsToLower (s : String) : String := ⟨s.data.map Char.toLower⟩

/-- Worker for JS `String.prototype.split(/\s+/)`.  The first argument is
`some piece` while a (possibly empty) piece is being accumulated and `none`
while a whitespace run is being skipped (the piece before the run has
already been emitted).  The accumulated piece is kept reversed. -/
def jsSplitWsGo : Option (List Char) → List Char → List (List Char)
  | cur, [] => [(cur.getD []).reverse]
  | cur, c :: rest =>
    if isWsChar c then
      match cur with
      | some piece => piece.reverse :: jsSplitWsGo none rest
      | none => jsSplitWsGo none rest
    else
      jsSplitWsGo (some (c :: cur.getD [])) rest

/-- JS `String.prototype.split(/\s+/)`: split on maximal whitespace runs;
a leading or trailing run contributes an empty piece, and splitting the
empty string yields `[""]`.  The result is never the empty list. -/
def jsSplitWs (s : String) : List String :=
  (jsSplitWsGo (some []) s.data).map List.asString

/-- Decidable list-infix test (JS `String.prototype.includes` on char
lists): the needle is a prefix of some suffix of the haystack. -/
def listIsInfixOf : List Char → List Char → Bool
  | needle, [] => needle.isEmpty
  | needle, c :: t => needle.isPrefixOf (c :: t) || listIsInfixOf needle t

/-- JS `s.includes(sub)`. -/
def strIncludes (s sub : String) : Bool := listIsInfixOf sub.data s.data

/-- JS `s.startsWith(p)`. -/
def strStarts (s p : String) : Bool := p.data.isPrefixOf s.data

/-- JS `s.endsWith(p)`. -/
def strEnds (s p : String) : Bool := p.data.reverse.isPrefixOf s.data.reverse

/-- JS `s.slice(1, -1)`: drop the first and last character. -/
def sliceOneNegOne (s : String) : String := ⟨(s.data.drop 1).dropLast⟩

/-- JS regex `replace(/[<>]/g, '')`: remove every angle bracket. -/
def removeAngles (s : String) : String :=
  ⟨s.data.filter (fun c => !(c = '<' || c = '>'))⟩

/-- JS falsy-string coalescing `a || b` for strings: the empty string is
falsy. -/
def jsOrStr (a b : String) : String := if a = "" then b else a

/-! ### Basic lemmas about the string primitives -/

theorem listIsInfixOf_iff (needle hay : List Char) :
    listIsInfixOf needle hay = true ↔ needle <:+: hay := by
  induction hay with
  | nil =>
    constructor
    · intro h
      have : needle = [] := by simpa [listIsInfixOf, List.isEmpty_iff] using h
      rw [this]
    · intro h
      have : needle = [] := List.eq_nil_of_infix_nil h
      simp [listIsInfixOf, List.isEmpty_iff, this]
  | cons c t ih =>
    simp only [listIsInfixOf, Bool.or_eq_true, List.isPrefixOf_iff_prefix, ih]
    exact List.infix_cons_iff.symm

theorem strIncludes_iff (s sub : String) :
    strIncludes s sub = true ↔ sub.data <:+: s.data := listIsInfixOf_iff _ _

/-- Dropping a whitespace prefix preserves any non-empty infix whose first
character is not whitespace. -/
theorem infix_dropWhile_of_head_not_ws {x l : List Char} (c : Char) (x' : List Char)
    (hx : x = c :: x') (hc : isWsChar c = false) (h : x <:+: l) :
    x <:+: l.dropWhile isWsChar := by
  induction l with
  | nil => simpa using h
  | cons a t ih =>
    by_cases ha : isWsChar a = true
    · rw [List.dropWhile_cons_of_pos ha]
      apply ih
      rcases List.infix_cons_iff.mp h with hpre | hinf
      · exfalso
        rw [hx] at hpre
        rcases hpre with ⟨t', ht⟩
        have hca : c = a := by
          have := congrArg (fun l => l.head?) ht
          simpa using this
        rw [hca, ha] at hc
        simp at hc
      · exact hinf
    · rw [List.dropWhile_cons_of_neg ha]
      exact h

theorem infix_jsTrimList_of_not_ws {x l : List Char} (c d : Char) (x' x'' : List Char)
    (hx : x = c :: x') (hxr : x.reverse = d :: x'')
    (hc : isWsChar c = false) (hd : isWsChar d = false)
    (h : x <:+: l) : x <:+: jsTrimList l := by
  unfold jsTrimList
  rw [← List.reverse_infix]
  simp only [List.reverse_reverse]
  apply infix_dropWhile_of_head_not_ws d x'' hxr hd
  rw [List.reverse_infix]
  exact infix_dropWhile_of_head_not_ws c x' hx hc h

/-- A string all of whose characters are whitespace trims to the empty
string. -/
theorem jsTrimList_eq_nil (l : List Char) (h : ∀ c ∈ l, isWsChar c = true) :
    jsTrimList l = [] := by
  unfold jsTrimList
  have h1 : l.dropWhile isWsChar = [] := List.dropWhile_eq_nil_iff.mpr h
  rw [h1]
  simp

/-- Conversely, if the trim is empty then every character was whitespace. -/
theorem all_ws_of_jsTrimList_eq_nil (l : List Char) (h : jsTrimList l = []) :
    ∀ c ∈ l, isWsChar c = true := by
  unfold jsTrimList at h
  have h2 : (l.dropWhile isWsChar).reverse.dropWhile isWsChar = [] := by
    have := congrArg List.reverse h
    simpa using this
  have h3 : ∀ c ∈ (l.dropWhile isWsChar).reverse, isWsChar c = true :=
    List.dropWhile_eq_nil_iff.mp h2
  have h4 : ∀ c ∈ l.dropWhile isWsChar, isWsChar c = true := by
    intro c hc; exact h3 c (by simpa using hc)
  intro c hc
  by_cases hmem : c ∈ l.dropWhile isWsChar
  · exact h4 c hmem
  · -- c was dropped, i.e. it lies in the maximal whitespace prefix
    have hsplit : l = l.takeWhile isWsChar ++ l.dropWhile isWsChar :=
      (List.takeWhile_append_dropWhile (p := isWsChar) (l := l)).symm
    rw [hsplit] at hc
    rcases List.mem_append.mp hc with hc1 | hc2
    · exact List.mem_takeWhile_imp hc1
    · exact absurd hc2 hmem

/-- ASCII lowercasing preserves whitespace-ness of a character. -/
theorem isWsChar_toLower (c : Char) : isWsChar (Char.toLower c) = isWsChar c := by
  unfold isWsChar Char.toLower
  by_cases h : c.toNat ≥ 65 ∧ c.toNat ≤ 90
  · rw [if_pos h]
    have hws : c.isWhitespace = false := by
      by_contra hcontra
      have h2 : c.isWhitespace = true := by simpa using hcontra
      simp only [Char.isWhitespace, Bool.or_eq_true, decide_eq_true_eq] at h2
      rcases h2 with ((h1 | h1) | h1) | h1 <;> (subst h1; exact absurd h (by decide))
    rw [hws]
    obtain ⟨h1, h2⟩ := h
    set n := c.toNat with hn
    interval_cases n <;> decide
  · rw [if_neg h]

/-- Lowercasing commutes with trimming. -/
theorem map_toLower_jsTrimList (l : List Char) :
    (jsTrimList l).map Char.toLower = jsTrimList (l.map Char.toLower) := by
  have hp : (fun c => isWsChar (Char.toLower c)) = isWsChar := by
    funext c; exact isWsChar_toLower c
  unfold jsTrimList
  rw [List.dropWhile_map, ← List.map_reverse, List.dropWhile_map, ← List.map_reverse]
  simp only [Function.comp_def, hp]

/-- Every piece produced by the whitespace splitter consists of characters
of the input that are not whitespace, when started with an empty or
all-non-whitespace accumulator; in particular, on an all-whitespace input
every piece is empty. -/
theorem jsSplitWsGo_all_ws (l : List Char) (h : ∀ c ∈ l, isWsChar c = true) :
    ∀ cur, (∀ c ∈ cur.getD [], False) →
      ∀ t ∈ jsSplitWsGo cur l, t = [] := by
  induction l with
  | nil =>
    intro cur hcur t ht
    simp only [jsSplitWsGo, List.mem_singleton] at ht
    subst ht
    cases cur with
    | none => rfl
    | some piece =>
      cases piece with
      | nil => rfl
      | cons a p => exact absurd (by simp : a ∈ (some (a :: p)).getD []) (fun hh => hcur a hh)
  | cons c rest ih =>
    intro cur hcur t ht
    have hc : isWsChar c = true := h c (by simp)
    have hrest : ∀ d ∈ rest, isWsChar d = true := fun d hd => h d (by simp [hd])
    simp only [jsSplitWsGo, hc, if_pos] at ht
    cases cur with
    | none => exact ih hrest none (by intro c hc2; simp at hc2) t ht
    | some piece =>
      have hpiece : piece = [] := by
        cases piece with
        | nil => rfl
        | cons a p => exact absurd (by simp : a ∈ (some (a :: p)).getD []) (fun hh => hcur a hh)
      subst hpiece
      simp only [List.reverse_nil, List.mem_cons] at ht
      rcases ht with rfl | ht
      · rfl
      · exact ih hrest none (by intro c hc2; simp at hc2) t ht

/-- Splitting an all-whitespace string and keeping only non-empty words
yields nothing. -/
theorem jsSplitWs_filter_all_ws (s : String) (h : ∀ c ∈ s.data, isWsChar c = true) :
    (jsSplitWs s).filter (fun w => decide (w.length > 0)) = [] := by
  rw [List.filter_eq_nil_iff]
  intro w hw
  unfold jsSplitWs at hw
  rcases List.mem_map.mp hw with ⟨t, ht, rfl⟩
  have : t = [] := jsSplitWsGo_all_ws s.data h (some []) (by intro c hc; simp at hc) t ht
  subst this
  decide

/-! ## JSON values

`Record<string, unknown>` values flowing through the handlers (configs,
result objects) are modelled by the inductive type `J`.  Object literals
are association lists; lookup returns the first binding for a key. -/

inductive J where
  | null
  | bool (b : Bool)
  | num (q : ℚ)
  | str (s : String)
  | arr (xs : List J)
  | obj (fields : List (String × J))
deriving Repr

mutual

/-- Structural equality test on JSON values (models JS `===` on the
primitive values that the validator compares). -/
def jBeq : J → J → Bool
  | J.null, J.null => true
  | J.bool a, J.bool b => a == b
  | J.num a, J.num b => a == b
  | J.str a, J.str b => a == b
  | J.arr xs, J.arr ys => jBeqList xs ys
  | J.obj xs, J.obj ys => jBeqObj xs ys
  | _, _ => false

def jBeqList : List J → List J → Bool
  | [], [] => true
  | x :: xs, y :: ys => jBeq x y && jBeqList xs ys
  | _, _ => false

def jBeqObj : List (String × J) → List (String × J) → Bool
  | [], [] => true
  | (k1, v1) :: xs, (k2, v2) :: ys => k1 == k2 && jBeq v1 v2 && jBeqObj xs ys
  | _, _ => false

end

/-- First-match lookup in a JS object (association list). -/
def jLookup (fields : List (String × J)) (k : String) : Option J :=
  fields.lookup k

/-- JS truthiness: `null`, `false`, `0` and `""` are falsy; objects and
arrays are always truthy. -/
def jsFalsy : J → Bool
  | J.null => true
  | J.bool b => !b
  | J.num q => q == 0
  | J.str s => s == ""
  | J.arr _ => false
  | J.obj _ => false

/-- JS `typeof` (note `typeof null === 'object'` and arrays are objects). -/
def jsTypeof : J → String
  | J.null => "object"
  | J.bool _ => "boolean"
  | J.num _ => "number"
  | J.str _ => "string"
  | J.arr _ => "object"
  | J.obj _ => "object"

/-- Embed a nullable SQL string column into JSON. -/
def jStrOpt : Option String → J
  | some s => J.str s
  | none => J.null

/-- Field access on a JSON object. -/
def jGet (v : J) (k : String) : Option J :=
  match v with
  | J.obj fs => jLookup fs k
  | _ => none

/-- JS object spread `{...obj, k: x}`: set (or add) one field. -/
def jSetField (v : J) (k : String) (x : J) : J :=
  match v with
  | J.obj fs => J.obj ((fs.filter (fun p => !(p.1 == k))) ++ [(k, x)])
  | other => other

/-! ## Edit distance (`getEditDistance`, search-handlers.ts lines 584-603)

The source fills an `(m+1) x (n+1)` DP matrix; each cell is written once
from already-written cells, so the loop nest is embedded as the cell
recurrence `editDP`.  `levRec` is the standard head-recursive Levenshtein
recursion used as the reference; `EditRel xs ys n` is the alignment-style
notion of an edit script of cost `n`. -/

/-- Embedding of `getEditDistance`'s DP table. -/
def editDP (s1 s2 : List Char) : Nat → Nat → Nat
  | 0, j => j
  | i+1, 0 => i + 1
  | i+1, j+1 =>
    if s1.getD i ' ' = s2.getD j ' ' then editDP s1 s2 i j
    else 1 + min (editDP s1 s2 i (j+1)) (min (editDP s1 s2 (i+1) j) (editDP s1 s2 i j))
termination_by i j => (i, j)

def getEditDistance (s1 s2 : String) : Nat :=
  editDP s1.data s2.data s1.data.length s2.data.length

/-- Reference recursion for the Levenshtein distance. -/
def levRec : List Char → List Char → Nat
  | [], ys => ys.length
  | x :: xs, [] => (x :: xs).length
  | x :: xs, y :: ys =>
    if x = y then levRec xs ys
    else 1 + min (levRec xs (y :: ys)) (min (levRec (x :: xs) ys) (levRec xs ys))
termination_by xs ys => (xs.length, ys.length)


/-- An alignment-style edit script between two character lists: `EditRel xs ys n`
holds when `xs` can be transformed into `ys` using exactly `n` single-character
insertions, deletions and substitutions (matched characters are free). -/
inductive EditRel : List Char → List Char → Nat → Prop where
  | nil : EditRel [] [] 0
  | copy (a : Char) {xs ys : List Char} {n : Nat} :
      EditRel xs ys n → EditRel (a :: xs) (a :: ys) n
  | subs (a b : Char) {xs ys : List Char} {n : Nat} :
      EditRel xs ys n → EditRel (a :: xs) (b :: ys) (n + 1)
  | ins (b : Char) {xs ys : List Char} {n : Nat} :
      EditRel xs ys n → EditRel xs (b :: ys) (n + 1)
  | del (a : Char) {xs ys : List Char} {n : Nat} :
      EditRel xs ys n → EditRel (a :: xs) ys (n + 1)

theorem editRel_nil_left (ys : List Char) : EditRel [] ys ys.length := by
  induction ys with
  | nil => exact EditRel.nil
  | cons b t ih => exact EditRel.ins b ih

theorem editRel_nil_right (xs : List Char) : EditRel xs [] xs.length := by
  induction xs with
  | nil => exact EditRel.nil
  | cons a t ih => exact EditRel.del a ih

/-- The reference recursion is achieved by some edit script. -/
theorem editRel_levRec (xs ys : List Char) : EditRel xs ys (levRec xs ys) := by
  induction xs, ys using levRec.induct with
  | case1 ys => simpa [levRec] using editRel_nil_left ys
  | case2 x xs => simpa [levRec] using editRel_nil_right (x :: xs)
  | case3 xs y ys ih => simpa [levRec] using EditRel.copy y ih
  | case4 x xs y ys hxy ih1 ih2 ih3 =>
    have hA := EditRel.del x ih1
    have hB := EditRel.ins y ih2
    have hC := EditRel.subs x y ih3
    simp only [levRec, if_neg hxy]
    rcases Nat.le_total (levRec xs (y :: ys)) (min (levRec (x :: xs) ys) (levRec xs ys)) with h | h
    · rw [Nat.min_eq_left h, Nat.add_comm]
      exact hA
    · rw [Nat.min_eq_right h]
      rcases Nat.le_total (levRec (x :: xs) ys) (levRec xs ys) with h2 | h2
      · rw [Nat.min_eq_left h2, Nat.add_comm]
        exact hB
      · rw [Nat.min_eq_right h2, Nat.add_comm]
        exact hC

theorem levRec_nil_left (ys : List Char) : levRec [] ys = ys.length := by
  simp [levRec]

theorem levRec_nil_right (xs : List Char) : levRec xs [] = xs.length := by
  cases xs <;> simp [levRec]

/-- Triangle inequalities: consing a character on either side changes the
reference distance by at most one, in both directions. -/
theorem levRec_triangle (n : Nat) : ∀ xs ys : List Char, xs.length + ys.length ≤ n →
    (∀ c, levRec (c :: xs) ys ≤ 1 + levRec xs ys) ∧
    (∀ c, levRec xs (c :: ys) ≤ 1 + levRec xs ys) ∧
    (∀ c, levRec xs ys ≤ 1 + levRec (c :: xs) ys) ∧
    (∀ c, levRec xs ys ≤ 1 + levRec xs (c :: ys)) := by
  induction n with
  | zero =>
    intro xs ys hlen
    have hxs : xs = [] := List.length_eq_zero.mp (by omega)
    have hys : ys = [] := List.length_eq_zero.mp (by omega)
    subst hxs; subst hys
    refine ⟨?_, ?_, ?_, ?_⟩ <;> (intro c; simp [levRec])
  | succ n ih =>
    intro xs ys hlen
    refine ⟨?_, ?_, ?_, ?_⟩
    · -- levRec (c :: xs) ys ≤ 1 + levRec xs ys
      intro c
      cases ys with
      | nil => simp [levRec, levRec_nil_right]; omega
      | cons b t =>
        have iht := ih xs t (by simp at hlen ⊢; omega)
        by_cases hcb : c = b
        · simp only [levRec, if_pos hcb]
          have := iht.2.2.2 b
          omega
        · simp only [levRec, if_neg hcb]
          have h1 : min (levRec xs (b :: t)) (min (levRec (c :: xs) t) (levRec xs t)) ≤
              levRec xs (b :: t) := Nat.min_le_left _ _
          omega
    · -- levRec xs (c :: ys) ≤ 1 + levRec xs ys
      intro c
      cases xs with
      | nil => simp [levRec, levRec_nil_left]; omega
      | cons a t =>
        have iht := ih t ys (by simp at hlen ⊢; omega)
        by_cases hac : a = c
        · simp only [levRec, if_pos hac]
          have := iht.2.2.1 a
          omega
        · simp only [levRec, if_neg hac]
          have h1 : min (levRec t (c :: ys)) (min (levRec (a :: t) ys) (levRec t ys)) ≤
              min (levRec (a :: t) ys) (levRec t ys) := Nat.min_le_right _ _
          have h2 : min (levRec (a :: t) ys) (levRec t ys) ≤ levRec (a :: t) ys :=
            Nat.min_le_left _ _
          omega
    · -- levRec xs ys ≤ 1 + levRec (c :: xs) ys
      intro c
      cases ys with
      | nil => simp [levRec, levRec_nil_right]; omega
      | cons b t =>
        have iht := ih xs t (by simp at hlen ⊢; omega)
        by_cases hcb : c = b
        · simp only [levRec, if_pos hcb]
          have := iht.2.1 b
          omega
        · simp only [levRec, if_neg hcb]
          -- goal: levRec xs (b :: t) ≤ 1 + (1 + min A (min B C))
          have hA : levRec xs (b :: t) ≤ 1 + levRec xs t := iht.2.1 b
          have hB : levRec xs t ≤ 1 + levRec (c :: xs) t := iht.2.2.1 c
          have h1 : min (levRec xs (b :: t)) (min (levRec (c :: xs) t) (levRec xs t)) =
              levRec xs (b :: t) ∨
              min (levRec xs (b :: t)) (min (levRec (c :: xs) t) (levRec xs t)) =
              min (levRec (c :: xs) t) (levRec xs t) := min_choice _ _
          have h2 : min (levRec (c :: xs) t) (levRec xs t) = levRec (c :: xs) t ∨
              min (levRec (c :: xs) t) (levRec xs t) = levRec xs t := min_choice _ _
          omega
    · -- levRec xs ys ≤ 1 + levRec xs (c :: ys)
      intro c
      cases xs with
      | nil => simp [levRec, levRec_nil_left]; omega
      | cons a t =>
        have iht := ih t ys (by simp at hlen ⊢; omega)
        by_cases hac : a = c
        · simp only [levRec, if_pos hac]
          have := iht.1 a
          omega
        · simp only [levRec, if_neg hac]
          have hA : levRec (a :: t) ys ≤ 1 + levRec t ys := iht.1 a
          have hB : levRec t ys ≤ 1 + levRec t (c :: ys) := iht.2.2.2 c
          have h1 : min (levRec t (c :: ys)) (min (levRec (a :: t) ys) (levRec t ys)) =
              levRec t (c :: ys) ∨
              min (levRec t (c :: ys)) (min (levRec (a :: t) ys) (levRec t ys)) =
              min (levRec (a :: t) ys) (levRec t ys) := min_choice _ _
          have h2 : min (levRec (a :: t) ys) (levRec t ys) = levRec (a :: t) ys ∨
              min (levRec (a :: t) ys) (levRec t ys) = levRec t ys := min_choice _ _
          omega

/-- Every edit script costs at least the reference distance. -/
theorem levRec_le_of_editRel {xs ys : List Char} {n : Nat}
    (h : EditRel xs ys n) : levRec xs ys ≤ n := by
  induction h with
  | nil => simp [levRec]
  | copy a h ih => simpa [levRec] using ih
  | subs a b h ih =>
    rename_i xs' ys' n'
    by_cases hab : a = b
    · subst hab
      simp only [levRec, eq_self_iff_true, ite_true]
      omega
    · simp only [levRec, if_neg hab]
      have h1 : min (levRec xs' (b :: ys')) (min (levRec (a :: xs') ys') (levRec xs' ys')) ≤
          min (levRec (a :: xs') ys') (levRec xs' ys') := Nat.min_le_right _ _
      have h2 : min (levRec (a :: xs') ys') (levRec xs' ys') ≤ levRec xs' ys' :=
        Nat.min_le_right _ _
      omega
  | ins b h ih =>
    rename_i xs' ys' n'
    cases xs' with
    | nil => simp only [levRec_nil_left] at ih ⊢; simp; omega
    | cons a t =>
      by_cases hab : a = b
      · subst hab
        simp only [levRec, eq_self_iff_true, ite_true]
        have htri := (levRec_triangle (t.length + ys'.length) t ys' (le_refl _)).2.2.1 a
        omega
      · simp only [levRec, if_neg hab]
        have h1 : min (levRec t (b :: ys')) (min (levRec (a :: t) ys') (levRec t ys')) ≤
            min (levRec (a :: t) ys') (levRec t ys') := Nat.min_le_right _ _
        have h2 : min (levRec (a :: t) ys') (levRec t ys') ≤ levRec (a :: t) ys' :=
          Nat.min_le_left _ _
        omega
  | del a h ih =>
    rename_i xs' ys' n'
    cases ys' with
    | nil => simp only [levRec_nil_right] at ih ⊢; simp; omega
    | cons b t =>
      by_cases hab : a = b
      · subst hab
        simp only [levRec, eq_self_iff_true, ite_true]
        have htri := (levRec_triangle (xs'.length + t.length) xs' t (le_refl _)).2.2.2 a
        omega
      · simp only [levRec, if_neg hab]
        have h1 : min (levRec xs' (b :: t)) (min (levRec (a :: xs') t) (levRec xs' t)) ≤
            levRec xs' (b :: t) := Nat.min_le_left _ _
        omega

/-- Edit scripts can also act at the far end of both lists. -/
theorem editRel_snoc_copy {xs ys : List Char} {n : Nat} (a : Char)
    (h : EditRel xs ys n) : EditRel (xs ++ [a]) (ys ++ [a]) n := by
  induction h with
  | nil => exact EditRel.copy a EditRel.nil
  | copy c h ih => exact EditRel.copy c ih
  | subs c d h ih => exact EditRel.subs c d ih
  | ins d h ih => exact EditRel.ins d ih
  | del c h ih => exact EditRel.del c ih

theorem editRel_snoc_subs {xs ys : List Char} {n : Nat} (a b : Char)
    (h : EditRel xs ys n) : EditRel (xs ++ [a]) (ys ++ [b]) (n + 1) := by
  induction h with
  | nil => exact EditRel.subs a b EditRel.nil
  | copy c h ih => exact EditRel.copy c ih
  | subs c d h ih => exact EditRel.subs c d ih
  | ins d h ih => exact EditRel.ins d ih
  | del c h ih => exact EditRel.del c ih

theorem editRel_snoc_ins {xs ys : List Char} {n : Nat} (b : Char)
    (h : EditRel xs ys n) : EditRel xs (ys ++ [b]) (n + 1) := by
  induction h with
  | nil => exact EditRel.ins b EditRel.nil
  | copy c h ih => exact EditRel.copy c ih
  | subs c d h ih => exact EditRel.subs c d ih
  | ins d h ih => exact EditRel.ins d ih
  | del c h ih => exact EditRel.del c ih

theorem editRel_snoc_del {xs ys : List Char} {n : Nat} (a : Char)
    (h : EditRel xs ys n) : EditRel (xs ++ [a]) ys (n + 1) := by
  induction h with
  | nil => exact EditRel.del a EditRel.nil
  | copy c h ih => exact EditRel.copy c ih
  | subs c d h ih => exact EditRel.subs c d ih
  | ins d h ih => exact EditRel.ins d ih
  | del c h ih => exact EditRel.del c ih

/-- Edit distance is invariant under reversing both strings. -/
theorem editRel_reverse {xs ys : List Char} {n : Nat}
    (h : EditRel xs ys n) : EditRel xs.reverse ys.reverse n := by
  induction h with
  | nil => exact EditRel.nil
  | copy c h ih => simpa using editRel_snoc_copy c ih
  | subs c d h ih => simpa using editRel_snoc_subs c d ih
  | ins d h ih => simpa using editRel_snoc_ins d ih
  | del c h ih => simpa using editRel_snoc_del c ih

/-- Edit scripts reverse direction at the same cost. -/
theorem editRel_symm {xs ys : List Char} {n : Nat}
    (h : EditRel xs ys n) : EditRel ys xs n := by
  induction h with
  | nil => exact EditRel.nil
  | copy c h ih => exact EditRel.copy c ih
  | subs c d h ih => exact EditRel.subs d c ih
  | ins d h ih => exact EditRel.del d ih
  | del c h ih => exact EditRel.ins c ih

/-- A zero-cost edit script forces equality. -/
theorem editRel_zero {xs ys : List Char} {n : Nat}
    (h : EditRel xs ys n) (hn : n = 0) : xs = ys := by
  induction h with
  | nil => rfl
  | copy c h ih => rw [ih hn]
  | subs c d h ih => omega
  | ins d h ih => omega
  | del c h ih => omega

/-- The DP table of the source implementation agrees with the reference
recursion on the corresponding reversed prefixes. -/
theorem editDP_eq_levRec (s1 s2 : List Char) :
    ∀ i, i ≤ s1.length → ∀ j, j ≤ s2.length →
      editDP s1 s2 i j = levRec ((s1.take i).reverse) ((s2.take j).reverse) := by
  intro i
  induction i with
  | zero =>
    intro _ j hj
    simp only [editDP, List.take_zero, List.reverse_nil, levRec_nil_left]
    rw [List.length_reverse, List.length_take]
    omega
  | succ i ihi =>
    intro hi j
    induction j with
    | zero =>
      intro hj
      simp only [editDP, List.take_zero, List.reverse_nil, levRec_nil_right]
      rw [List.length_reverse, List.length_take]
      omega
    | succ j ihj =>
      intro hj
      have hi' : i < s1.length := by omega
      have hj' : j < s2.length := by omega
      have h1 : (s1.take (i + 1)).reverse = s1[i] :: (s1.take i).reverse := by
        rw [List.take_succ, List.getElem?_eq_getElem hi']
        simp
      have h2 : (s2.take (j + 1)).reverse = s2[j] :: (s2.take j).reverse := by
        rw [List.take_succ, List.getElem?_eq_getElem hj']
        simp
      have hg1 : s1.getD i ' ' = s1[i] := by
        simp [List.getD_eq_getElem?_getD, List.getElem?_eq_getElem hi']
      have hg2 : s2.getD j ' ' = s2[j] := by
        simp [List.getD_eq_getElem?_getD, List.getElem?_eq_getElem hj']
      rw [h1, h2]
      rw [editDP, levRec, hg1, hg2]
      by_cases hc : s1[i] = s2[j]
      · rw [if_pos hc, if_pos hc]
        exact ihi (by omega) j (by omega)
      · rw [if_neg hc, if_neg hc]
        rw [ihi (by omega) (j + 1) (by omega), ihj (by omega),
          ihi (by omega) j (by omega)]
        rw [h1, h2]

/-- `getEditDistance` computes the reference distance of the reversed
strings (which below is shown to coincide with the distance itself). -/
theorem getEditDistance_eq_levRec_reverse (s1 s2 : String) :
    getEditDistance s1 s2 = levRec s1.data.reverse s2.data.reverse := by
  unfold getEditDistance
  rw [editDP_eq_levRec s1.data s2.data s1.data.length (le_refl _) s2.data.length (le_refl _)]
  rw [List.take_length, List.take_length]

theorem levRec_isLeast (xs ys : List Char) :
    IsLeast {n | EditRel xs ys n} (levRec xs ys) :=
  ⟨editRel_levRec xs ys, fun _ hn => levRec_le_of_editRel hn⟩

/-- C8 core: `getEditDistance` is the least cost of any edit script. -/
theorem getEditDistance_isLeast (s1 s2 : String) :
    IsLeast {n | EditRel s1.data s2.data n} (getEditDistance s1 s2) := by
  rw [getEditDistance_eq_levRec_reverse]
  have hset : {n | EditRel s1.data s2.data n} = {n | EditRel s1.data.reverse s2.data.reverse n} := by
    ext n
    constructor
    · intro h; exact editRel_reverse h
    · intro h; simpa using editRel_reverse h
  rw [hset]
  exact levRec_isLeast _ _

theorem getEditDistance_symm (s1 s2 : String) :
    getEditDistance s1 s2 = getEditDistance s2 s1 := by
  have h1 := getEditDistance_isLeast s1 s2
  have h2 := getEditDistance_isLeast s2 s1
  have hset : {n | EditRel s2.data s1.data n} = {n | EditRel s1.data s2.data n} := by
    ext n
    exact ⟨fun h => editRel_symm h, fun h => editRel_symm h⟩
  rw [hset] at h2
  exact IsLeast.unique h1 h2

theorem getEditDistance_eq_zero_iff (s1 s2 : String) :
    getEditDistance s1 s2 = 0 ↔ s1 = s2 := by
  constructor
  · intro h
    have hrel := (getEditDistance_isLeast s1 s2).1
    rw [h] at hrel
    have hdata : s1.data = s2.data := editRel_zero hrel rfl
    exact congrArg String.mk hdata
  · rintro rfl
    have hle := (getEditDistance_isLeast s1 s1).2
    have hrel : EditRel s1.data s1.data 0 := by
      induction s1.data with
      | nil => exact EditRel.nil
      | cons c t ih => exact EditRel.copy c ih
    have := hle hrel
    omega

/-- C8: `getEditDistance(s1, s2)` equals the Levenshtein edit distance
between `s1` and `s2` — the minimum number of single-character insertions,
deletions and substitutions transforming `s1` into `s2` (stated as:
it is the least cost of any edit script relating the two strings); it is
`0` iff `s1 = s2`, and it is symmetric in its arguments. -/
theorem C8_getEditDistance_is_levenshtein (s1 s2 : String) :
    IsLeast {n | EditRel s1.data s2.data n} (getEditDistance s1 s2) ∧
    (getEditDistance s1 s2 = 0 ↔ s1 = s2) ∧
    getEditDistance s1 s2 = getEditDistance s2 s1 :=
  ⟨getEditDistance_isLeast s1 s2, getEditDistance_eq_zero_iff s1 s2,
    getEditDistance_symm s1 s2⟩

/-! ## Search & ranking engine (src/mcp/handlers/search-handlers.ts)

A database row of the `nodes` table.  Nullable columns are `Option`s; the
community-metadata columns are typed loosely in the source
(`(node as Record<string, unknown>).is_community === 1`), modelled here as
optional numbers. -/
structure NodeRow where
  node_type : String
  display_name : String
  description : Option String
  category : Option String
  package_name : String
  is_community : Option ℚ := none
  is_verified : Option ℚ := none
  author_name : Option String := none
  npm_downloads : Option ℚ := none
deriving Repr, DecidableEq

/-- `options.mode` of a search request. -/
inductive SMode where
  | OR
  | AND
  | FUZZY
deriving Repr, DecidableEq

/-- `options.source` of a search request. -/
inductive Src where
  | all
  | core
  | community
  | verified
deriving Repr, DecidableEq

structure SearchOptions where
  mode : Option SMode := none
  includeExamples : Option Bool := none
  source : Option Src := none
deriving Repr, DecidableEq

/-- Modelled from the spec: `getWorkflowNodeType` (src/utils/node-utils.ts
is not among the repository files provided) maps the internal short-prefix
node type to the external, workflow-facing identifier. -/
def getWorkflowNodeType (packageName nodeType : String) : String :=
  if strStarts nodeType "nodes-base." then
    "n8n-" ++ nodeType
  else if strStarts nodeType "nodes-langchain." then
    "@n8n/n8n-" ++ nodeType
  else
    nodeType

/-- Drop a leading character count from a string. -/
def strDropChars (s : String) (n : Nat) : String := ⟨s.data.drop n⟩

/-- `type_lower.replace(/^nodes-base\./, '').replace(/^nodes-langchain\./, '')`:
strip a leading package prefix. -/
def stripPkgPrefixes (t : String) : String :=
  let t1 := if strStarts t "nodes-base." then strDropChars t 11 else t
  if strStarts t1 "nodes-langchain." then strDropChars t1 16 else t1

/-- JS `\w` word-character class (ASCII). -/
def isWordChar (c : Char) : Bool := c.isAlphanum || c = '_'

/-- Character at index `i` is a word character (out of range counts as
non-word). -/
def wordAt (l : List Char) (i : Nat) : Bool :=
  match l.get? i with
  | some c => isWordChar c
  | none => false

/-- Regex `\b` at position `i` of `l` (`0 ≤ i ≤ l.length`). -/
def boundaryAt (l : List Char) (i : Nat) : Bool :=
  (if i = 0 then false else wordAt l (i - 1)) != wordAt l i

/-- Model of `new RegExp(`\b${pat}\b`, 'i').test(subj)` for patterns that
contain no regex metacharacters: a case-insensitive occurrence of `pat`
with word boundaries on both sides.  The callers pass the already
lowercased query as `pat`. -/
def regexBoundaryTest (pat subj : String) : Bool :=
  let p := pat.data
  let s := (jsToLower subj).data
  (List.range (s.length + 1)).any (fun i =>
    ((s.drop i).take p.length == p) && boundaryAt s i && boundaryAt s (i + p.length))

/-- `node.description?.toLowerCase().includes(q)` (`false` when the column
is null). -/
def descIncludes (node : NodeRow) (q : String) : Bool :=
  match node.description with
  | some d => strIncludes (jsToLower d) q
  | none => false

/-- `calculateRelevance` (search-handlers.ts lines 469-475): the coarse
`high`/`medium`/`low` label. -/
def calculateRelevance (node : NodeRow) (query : String) : String :=
  let lowerQuery := jsToLower query
  if strIncludes (jsToLower node.node_type) lowerQuery then "high"
  else if strIncludes (jsToLower node.display_name) lowerQuery then "high"
  else if descIncludes node lowerQuery then "medium"
  else "low"

/-- `calculateRelevanceScore` (search-handlers.ts lines 480-515): the
0-1000 relevance score used on the indexed (FTS) path. -/
def calculateRelevanceScore (node : NodeRow) (query : String) : Nat :=
  let query_lower := jsToLower query
  let name_lower := jsToLower node.display_name
  let type_lower := jsToLower node.node_type
  let type_without_prefix := stripPkgPrefixes type_lower
  if name_lower == query_lower then 1000
  else if type_without_prefix == query_lower then 950
  else if (query_lower == "webhook") && (node.node_type == "nodes-base.webhook") then 900
  else if (query_lower == "http" || query_lower == "http request" ||
      query_lower == "http call") && (node.node_type == "nodes-base.httpRequest") then 900
  else if strIncludes query_lower "http" && strIncludes query_lower "call" &&
      (node.node_type == "nodes-base.httpRequest") then 890
  else if strIncludes query_lower "http" && (node.node_type == "nodes-base.httpRequest") then 850
  else if strIncludes query_lower "webhook" && (node.node_type == "nodes-base.webhook") then 850
  else if strStarts name_lower query_lower then 800
  else if regexBoundaryTest query_lower node.display_name then 700
  else if strIncludes name_lower query_lower then 600
  else if strIncludes type_without_prefix query_lower then 500
  else if descIncludes node query_lower then 400
  else 0

/-- The base score chain of `rankSearchResults` (search-handlers.ts lines
616-640), the score before the multi-word bonus block: same rules as
`calculateRelevanceScore` except that there is no 890 tier and the two
850 tiers are tested in the opposite order. -/
def rankBaseScore (node : NodeRow) (query : String) : Nat :=
  let query_lower := jsToLower query
  let name_lower := jsToLower node.display_name
  let type_lower := jsToLower node.node_type
  let type_without_prefix := stripPkgPrefixes type_lower
  if name_lower == query_lower then 1000
  else if type_without_prefix == query_lower then 950
  else if (query_lower == "webhook") && (node.node_type == "nodes-base.webhook") then 900
  else if (query_lower == "http" || query_lower == "http request" ||
      query_lower == "http call") && (node.node_type == "nodes-base.httpRequest") then 900
  else if strIncludes query_lower "webhook" && (node.node_type == "nodes-base.webhook") then 850
  else if strIncludes query_lower "http" && (node.node_type == "nodes-base.httpRequest") then 850
  else if strStarts name_lower query_lower then 800
  else if regexBoundaryTest query_lower node.display_name then 700
  else if strIncludes name_lower query_lower then 600
  else if strIncludes type_without_prefix query_lower then 500
  else if descIncludes node query_lower then 400
  else 0

/-- The full per-node score of `rankSearchResults` (lines 616-653): base
score, then for multi-word queries the flat +200 (all words in the display
name) or +100 (all words in the description) bonus, then the hard-coded
920 override for query `http call` against display name `HTTP Request`. -/
def rankNodeScore (node : NodeRow) (query : String) : Nat :=
  let query_lower := jsToLower query
  let name_lower := jsToLower node.display_name
  let base := rankBaseScore node query
  let words := (jsSplitWs query_lower).filter (fun w => decide (w.length > 0))
  if words.length > 1 then
    let withBonus :=
      if words.all (fun w => strIncludes name_lower w) then base + 200
      else if words.all (fun w => descIncludes node w) then base + 100
      else base
    if (query_lower == "http call") && (name_lower == "http request") then 920
    else withBonus
  else base

/-- The sort comparator of `rankSearchResults` (lines 658-663) as a
`mergeSort` precedence test: higher score first, ties by display name
(`localeCompare` is modelled as Lean's code-point string order). -/
def rankLe (a b : NodeRow × Nat) : Bool :=
  decide (b.2 < a.2) || ((a.2 == b.2) && decide (a.1.display_name ≤ b.1.display_name))

/-- `rankSearchResults` (search-handlers.ts lines 608-666): score every
candidate row, sort by score descending with display-name tie-break, and
return the first `limit` rows. -/
def rankSearchResults (nodes : List NodeRow) (query : String) (limit : Nat) : List NodeRow :=
  let scoredNodes := nodes.map (fun node => (node, rankNodeScore node query))
  let sorted := scoredNodes.mergeSort rankLe
  (sorted.take limit).map (fun it => it.1)

/-- `calculateFuzzyScore` (search-handlers.ts lines 520-579): typo-tolerant
score as an exact rational (JS floats carry the same values on the
comparisons the claims are about). -/
def calculateFuzzyScore (node : NodeRow) (query : String) : ℚ :=
  let queryLower := jsToLower query
  let displayNameLower := jsToLower node.display_name
  let nodeTypeLower := jsToLower node.node_type
  let nodeTypeClean := stripPkgPrefixes nodeTypeLower
  if displayNameLower == queryLower || nodeTypeClean == queryLower then 1000
  else
    let nameDistance := getEditDistance queryLower displayNameLower
    let typeDistance := getEditDistance queryLower nodeTypeClean
    let nameWords := jsSplitWs displayNameLower
    -- the `Infinity` start value of the word-distance fold is unreachable
    -- (`split(/\s+/)` never returns an empty array); any value larger than
    -- the other two distances models it faithfully
    let minWordDistance :=
      match (nameWords.map (fun w => getEditDistance queryLower w)).minimum? with
      | some m => m
      | none => nameDistance + typeDistance + 1
    let bestDistance := min nameDistance (min typeDistance minWordDistance)
    let matchedLen :=
      if minWordDistance == bestDistance then
        match nameWords.find? (fun w => getEditDistance queryLower w == minWordDistance) with
        | some w => max queryLower.length w.length
        | none => queryLower.length
      else if typeDistance == bestDistance then max queryLower.length nodeTypeClean.length
      else max queryLower.length displayNameLower.length
    let similarity : ℚ := 1 - (bestDistance : ℚ) / (matchedLen : ℚ)
    if strIncludes displayNameLower queryLower || strIncludes nodeTypeClean queryLower then
      800 + similarity * 100
    else if strStarts displayNameLower queryLower || strStarts nodeTypeClean queryLower ||
        nameWords.any (fun w => strStarts w queryLower) then
      700 + similarity * 100
    else if bestDistance ≤ 2 then
      500 + ((2 - bestDistance : Nat) : ℚ) * 100 + similarity * 50
    else if bestDistance ≤ 3 && queryLower.length ≥ 4 then
      400 + ((3 - bestDistance : Nat) : ℚ) * 50 + similarity * 50
    else similarity * 300

/-- The abstract database behind the mcp search handlers: each `prepare`
statement of the source becomes one fetch function, taking exactly the
parameters the source binds.  `ftsRows` may fail (FTS5 syntax errors);
the plain row fetches always succeed. -/
structure SearchDb where
  /-- `nodes_fts MATCH ?` join (lines 100-118): takes the built FTS query,
  the cleaned query (used in `ORDER BY`), the source filter and the limit;
  returns rows with their FTS rank or a query error. -/
  ftsRows : String → String → Src → Nat → Except String (List (NodeRow × Int))
  /-- exact-phrase LIKE query (lines 311-316): phrase, source filter,
  `limit * 3`. -/
  likePhraseRows : String → Src → Nat → List NodeRow
  /-- word-wise LIKE query (lines 395-400): words, source filter,
  `limit * 3`. -/
  likeWordRows : List String → Src → Nat → List NodeRow
  /-- `template_node_configs` example fetch (two most popular example
  configurations per workflow node type), already shaped as result JSON. -/
  exampleConfigs : String → List J
  /-- `SELECT * FROM nodes` (fuzzy candidate pool, lines 246-248). -/
  allNodes : List NodeRow

/-- `{ query, results: [], totalCount: 0 }`. -/
def emptySearchResult (query : String) : J :=
  J.obj [("query", J.str query), ("results", J.arr []), ("totalCount", J.num 0)]

/-- The community-metadata enrichment both result builders share
(lines 155-164 / 332-341 / 416-425). -/
def communityFields (node : NodeRow) : List (String × J) :=
  if node.is_community == some 1 then
    [("isCommunity", J.bool true),
     ("isVerified", J.bool (node.is_verified == some 1))] ++
    (match node.author_name with
     | some a => if a == "" then [] else [("authorName", J.str a)]
     | none => []) ++
    (match node.npm_downloads with
     | some d => if d == 0 then [] else [("npmDownloads", J.num d)]
     | none => [])
  else []

/-- One result entry of the LIKE path (no `relevance` field). -/
def likeNodeResult (node : NodeRow) : J :=
  J.obj ([("nodeType", J.str node.node_type),
    ("workflowNodeType", J.str (getWorkflowNodeType node.package_name node.node_type)),
    ("displayName", J.str node.display_name),
    ("description", jStrOpt node.description),
    ("category", jStrOpt node.category),
    ("package", J.str node.package_name)] ++ communityFields node)

/-- One result entry of the FTS path (with the `relevance` label,
lines 144-166). -/
def ftsNodeResult (node : NodeRow) (cleanedQuery : String) : J :=
  J.obj ([("nodeType", J.str node.node_type),
    ("workflowNodeType", J.str (getWorkflowNodeType node.package_name node.node_type)),
    ("displayName", J.str node.display_name),
    ("description", jStrOpt node.description),
    ("category", jStrOpt node.category),
    ("package", J.str node.package_name),
    ("relevance", J.str (calculateRelevance node cleanedQuery))] ++ communityFields node)

/-- The `includeExamples` enrichment loop shared by the result builders:
append an `examples` field to a node result when the template store has
example configurations for its workflow node type. -/
def addExamples (db : SearchDb) (nodeResult : J) : J :=
  match jGet nodeResult "workflowNodeType" with
  | some (J.str wnt) =>
    let examples := db.exampleConfigs wnt
    if examples.length > 0 then jSetField nodeResult "examples" (J.arr examples)
    else nodeResult
  | _ => nodeResult

/-- Apply the example enrichment when `options.includeExamples` is set. -/
def maybeAddExamples (db : SearchDb) (options : SearchOptions) (results : List J) : List J :=
  if options.includeExamples = some true then results.map (addExamples db)
  else results

def srcOf (options : SearchOptions) : Src := options.source.getD Src.all

/-- `searchNodesLIKE` (search-handlers.ts lines 287-464): exact-phrase
branch for quoted queries, word-wise LIKE otherwise; ranked by
`rankSearchResults`. -/
def searchNodesLIKE (query : String) (limit : Nat) (options : SearchOptions)
    (db : SearchDb) : J :=
  let src := srcOf options
  if strStarts query "\"" && strEnds query "\"" then
    let exactPhrase := sliceOneNegOne query
    let nodes := db.likePhraseRows exactPhrase src (limit * 3)
    let rankedNodes := rankSearchResults nodes exactPhrase limit
    let results := maybeAddExamples db options (rankedNodes.map likeNodeResult)
    J.obj [("query", J.str query), ("results", J.arr results),
      ("totalCount", J.num rankedNodes.length)]
  else
    let words := (jsSplitWs (jsToLower query)).filter (fun w => decide (w.length > 0))
    if words.length = 0 then emptySearchResult query
    else
      let nodes := db.likeWordRows words src (limit * 3)
      let rankedNodes := rankSearchResults nodes query limit
      let results := maybeAddExamples db options (rankedNodes.map likeNodeResult)
      J.obj [("query", J.str query), ("results", J.arr results),
        ("totalCount", J.num rankedNodes.length)]

/-- Candidate scoring stage of `searchNodesFuzzy` (lines 250-253). -/
def fuzzyScored (db : SearchDb) (query : String) : List (NodeRow × ℚ) :=
  db.allNodes.map (fun node => (node, calculateFuzzyScore node query))

/-- The `(a, b) => b.score - a.score` comparator as a precedence test. -/
def fuzzyLe (a b : NodeRow × ℚ) : Bool := decide (b.2 ≤ a.2)

/-- Filter / sort / slice stage of `searchNodesFuzzy` (lines 255-259). -/
def fuzzyMatchingNodes (db : SearchDb) (query : String) (limit : Nat) : List NodeRow :=
  (((((fuzzyScored db query).filter
      (fun it => decide ((200 : ℚ) ≤ it.2))).mergeSort fuzzyLe).take limit).map
    (fun it => it.1))

/-- One fuzzy result entry (lines 272-279). -/
def fuzzyNodeResult (node : NodeRow) : J :=
  J.obj [("nodeType", J.str node.node_type),
    ("workflowNodeType", J.str (getWorkflowNodeType node.package_name node.node_type)),
    ("displayName", J.str node.display_name),
    ("description", jStrOpt node.description),
    ("category", jStrOpt node.category),
    ("package", J.str node.package_name)]

/-- `searchNodesFuzzy` (search-handlers.ts lines 233-282). -/
def searchNodesFuzzy (query : String) (limit : Nat) (db : SearchDb) : J :=
  let words := (jsSplitWs (jsToLower query)).filter (fun w => decide (w.length > 0))
  if words.length = 0 then
    J.obj [("query", J.str query), ("results", J.arr []), ("totalCount", J.num 0),
      ("mode", J.str "FUZZY")]
  else
    let matchingNodes := fuzzyMatchingNodes db query limit
    J.obj [("query", J.str query), ("mode", J.str "FUZZY"),
      ("results", J.arr (matchingNodes.map fuzzyNodeResult)),
      ("totalCount", J.num matchingNodes.length)]

/-- FTS query construction of the mcp handler (search-handlers.ts lines
67-83): a fully double-quoted query passes through verbatim; otherwise
the query is split on whitespace and the words are joined with
`" AND "` / `" OR "` (no wildcards are appended). -/
def buildFtsQueryMcp (cleanedQuery : String) (mode : SMode) : String :=
  if strStarts cleanedQuery "\"" && strEnds cleanedQuery "\"" then cleanedQuery
  else
    let words := (jsSplitWs cleanedQuery).filter (fun w => decide (w.length > 0))
    match mode with
    | SMode.AND => String.intercalate " AND " words
    | _ => String.intercalate " OR " words

/-- A row of the FTS join with its rank and relevance score. -/
structure ScoredFtsRow where
  row : NodeRow
  rank : Int
  relevanceScore : Nat
deriving Repr, DecidableEq

/-- The FTS-path sort comparator (lines 125-134) as a precedence test:
exact display-name match first, then relevance score descending, then
FTS rank ascending. -/
def ftsSortLe (cleanedQuery : String) (a b : ScoredFtsRow) : Bool :=
  if jsToLower a.row.display_name == jsToLower cleanedQuery then true
  else if jsToLower b.row.display_name == jsToLower cleanedQuery then false
  else if !(a.relevanceScore == b.relevanceScore) then
    decide (b.relevanceScore < a.relevanceScore)
  else decide (a.rank ≤ b.rank)

def modeStr : SMode → String
  | SMode.OR => "OR"
  | SMode.AND => "AND"
  | SMode.FUZZY => "FUZZY"

/-- Result assembly of the successful FTS path (lines 142-208). -/
def ftsSuccessResult (query cleanedQuery : String) (mode : SMode)
    (options : SearchOptions) (db : SearchDb) (sorted : List ScoredFtsRow) : J :=
  let results := maybeAddExamples db options
    (sorted.map (fun it => ftsNodeResult it.row cleanedQuery))
  let base := J.obj [("query", J.str query), ("results", J.arr results),
    ("totalCount", J.num sorted.length)]
  if mode = SMode.OR then base else jSetField base "mode" (J.str (modeStr mode))

/-- The catch-block of the FTS path (lines 210-227): FTS5 syntax errors
fall back to LIKE with the mode annotated, other errors fall back to LIKE
transparently. -/
def ftsErrorFallback (query : String) (limit : Nat) (mode : SMode)
    (options : SearchOptions) (db : SearchDb) (e : String) : J :=
  if strIncludes e "syntax error" || strIncludes e "fts5" then
    jSetField (searchNodesLIKE query limit options db) "mode" (J.str (modeStr mode))
  else searchNodesLIKE query limit options db

/-- `searchNodesFTS` (search-handlers.ts lines 49-228). -/
def searchNodesFTS (query : String) (limit : Nat) (mode : SMode)
    (options : SearchOptions) (db : SearchDb) : J :=
  let cleanedQuery := jsTrim query
  if cleanedQuery == "" then emptySearchResult query
  else if mode = SMode.FUZZY then searchNodesFuzzy cleanedQuery limit db
  else
    let ftsQuery := buildFtsQueryMcp cleanedQuery mode
    match db.ftsRows ftsQuery cleanedQuery (srcOf options) limit with
    | Except.error e => ftsErrorFallback query limit mode options db e
    | Except.ok rows =>
      let scoredNodes := rows.map
        (fun r => ScoredFtsRow.mk r.1 r.2 (calculateRelevanceScore r.1 cleanedQuery))
      let sorted := scoredNodes.mergeSort (ftsSortLe cleanedQuery)
      let hasHttpRequest := sorted.any (fun n => n.row.node_type == "nodes-base.httpRequest")
      if strIncludes (jsToLower cleanedQuery) "http" && !hasHttpRequest then
        searchNodesLIKE query limit options db
      else
        ftsSuccessResult query cleanedQuery mode options db sorted

/-! ## Legacy `NodeSearchHandler` (src/handlers/node-search-handler.ts) -/

/-- The abstract database behind `NodeSearchHandler`. -/
structure HandlerDb where
  /-- the FTS5 join (lines 87-105): built query, cleaned query (ORDER BY),
  source filter, limit. -/
  ftsRows : String → String → Src → Nat → Except String (List (NodeRow × Int))
  /-- the LIKE query (lines 178-202): cleaned query, limit. -/
  likeRows : String → Nat → List NodeRow

/-- `NodeSearchHandler.calculateRelevance` (lines 287-313): a 0-1 score.
The source reads `node.displayName`, a property that does not exist on a
database row (the column is `display_name`), so in JS
`(node.displayName || '')` is always the empty string. -/
def handlerCalculateRelevance (node : NodeRow) (query : String) : ℚ :=
  if query == "" then 1
  else
    let queryLower := jsToLower query
    let nameLower : String := ""
    let typeLower := jsToLower node.node_type
    let descLower := jsToLower (match node.description with | some d => d | none => "")
    let score : ℚ :=
      (if nameLower == queryLower then (10 : ℚ) else 0) +
      (if strStarts nameLower queryLower then 5 else 0) +
      (if strIncludes nameLower queryLower then 3 else 0) +
      (if strIncludes typeLower queryLower then 2 else 0) +
      (if strIncludes descLower queryLower then 1 else 0)
    min (score / 10) 1

/-- FTS query construction of `NodeSearchHandler.searchNodesFTS` (lines
59-69): split on whitespace, append a prefix wildcard `*` to every term,
join with `" AND "` / `" OR "`.  There is no quoted-phrase pass-through
here. -/
def handlerBuiltQuery (ftsQuery : String) (mode : SMode) : String :=
  match mode with
  | SMode.AND => String.intercalate " AND " ((jsSplitWs ftsQuery).map (fun t => t ++ "*"))
  | _ => String.intercalate " OR " ((jsSplitWs ftsQuery).map (fun t => t ++ "*"))

/-- A scored row of the handler's FTS path. -/
structure HScoredRow where
  row : NodeRow
  rank : Int
  relevanceScore : ℚ
deriving Repr, DecidableEq

/-- The handler FTS sort comparator (lines 114-126) as a precedence test. -/
def handlerFtsSortLe (ftsQuery : String) (a b : HScoredRow) : Bool :=
  if jsToLower a.row.display_name == jsToLower ftsQuery then true
  else if jsToLower b.row.display_name == jsToLower ftsQuery then false
  else if !(a.relevanceScore == b.relevanceScore) then
    decide (b.relevanceScore < a.relevanceScore)
  else decide (a.rank ≤ b.rank)

/-- One result entry of the handler FTS path (lines 138-161). -/
def handlerFtsNodeResult (node : NodeRow) (ftsQuery : String) : J :=
  J.obj ([("nodeType", J.str node.node_type),
    ("workflowNodeType", J.str (getWorkflowNodeType node.package_name node.node_type)),
    ("displayName", J.str node.display_name),
    ("description", jStrOpt node.description),
    ("category", jStrOpt node.category),
    ("package", J.str node.package_name),
    ("relevance", J.num (handlerCalculateRelevance node ftsQuery))] ++ communityFields node)

/-- One result entry of the handler LIKE path (lines 222-230, no
community metadata there). -/
def handlerLikeNodeResult (node : NodeRow) (cleanedQuery : String) : J :=
  J.obj [("nodeType", J.str node.node_type),
    ("workflowNodeType", J.str (getWorkflowNodeType node.package_name node.node_type)),
    ("displayName", J.str node.display_name),
    ("description", jStrOpt node.description),
    ("category", jStrOpt node.category),
    ("package", J.str node.package_name),
    ("relevance", J.num (handlerCalculateRelevance node cleanedQuery))]

/-- The handler LIKE sort comparator (lines 211-218) as a precedence
test. -/
def handlerLikeLe (cleanedQuery : String) (a b : NodeRow × ℚ) : Bool :=
  if jsToLower a.1.display_name == jsToLower cleanedQuery then true
  else if jsToLower b.1.display_name == jsToLower cleanedQuery then false
  else decide (b.2 ≤ a.2)

/-- `NodeSearchHandler.searchNodesLIKE` (lines 174-234). -/
def handlerSearchNodesLIKE (query : String) (limit : Nat) (db : HandlerDb) : J :=
  let cleanedQuery := removeAngles (jsTrim query)
  let nodes := db.likeRows cleanedQuery limit
  let scoredNodes := nodes.map (fun n => (n, handlerCalculateRelevance n cleanedQuery))
  let sorted := scoredNodes.mergeSort (handlerLikeLe cleanedQuery)
  J.obj [("query", J.str query),
    ("results", J.arr (sorted.map (fun it => handlerLikeNodeResult it.1 cleanedQuery))),
    ("totalCount", J.num sorted.length),
    ("fallback", J.bool true)]

/-- `NodeSearchHandler.searchNodesFTS` (lines 50-172).  On the guard path
(FTS found no `nodes-base.httpRequest` for an http query) the source
returns `this.searchNodesLIKE(query, limit)` where `query` is the local
variable holding the *built* FTS query string, not the original user
query. -/
def handlerSearchNodesFTS (ftsQuery : String) (limit : Nat) (mode : SMode)
    (options : SearchOptions) (db : HandlerDb) : Except String J :=
  let query := handlerBuiltQuery ftsQuery mode
  match db.ftsRows query ftsQuery (srcOf options) limit with
  | Except.error e => Except.error e
  | Except.ok rows =>
    let scoredNodes := rows.map
      (fun r => HScoredRow.mk r.1 r.2 (handlerCalculateRelevance r.1 ftsQuery))
    let sorted := scoredNodes.mergeSort (handlerFtsSortLe ftsQuery)
    let hasHttpRequest := sorted.any (fun n => n.row.node_type == "nodes-base.httpRequest")
    if strIncludes (jsToLower ftsQuery) "http" && !hasHttpRequest then
      Except.ok (handlerSearchNodesLIKE query limit db)
    else
      let base := J.obj [("query", J.str query),
        ("results", J.arr (sorted.map (fun it => handlerFtsNodeResult it.row ftsQuery))),
        ("totalCount", J.num sorted.length)]
      Except.ok (if mode = SMode.OR then base else jSetField base "mode" (J.str (modeStr mode)))

/-- `NodeSearchHandler.searchNodes` (lines 25-48): throws on empty or
whitespace-only queries, otherwise tries FTS and falls back to LIKE with
the original query on FTS errors. -/
def handlerSearchNodes (query : String) (limit : Nat) (options : SearchOptions)
    (db : HandlerDb) : Except String J :=
  if jsTrim query == "" then Except.error "Search query is required"
  else
    let mode := options.mode.getD SMode.OR
    let cleanedQuery := removeAngles (jsTrim query)
    match handlerSearchNodesFTS cleanedQuery limit mode options db with
    | Except.ok r => Except.ok r
    | Except.error _ => Except.ok (handlerSearchNodesLIKE query limit db)

/-! ## C4: empty / whitespace-only queries -/

theorem all_ws_of_jsTrim_eq_empty (q : String) (h : jsTrim q = "") :
    ∀ c ∈ q.data, isWsChar c = true :=
  all_ws_of_jsTrimList_eq_nil q.data (congrArg String.data h)

theorem strStarts_quote_of_all_ws (q : String)
    (h : ∀ c ∈ q.data, isWsChar c = true) : strStarts q "\"" = false := by
  unfold strStarts
  have hpat : ("\"" : String).data = ['"'] := rfl
  rw [hpat]
  cases hq : q.data with
  | nil => rfl
  | cons c t =>
    have hc : isWsChar c = true := h c (by rw [hq]; simp)
    have hne : ('"' == c) = false := by
      by_cases hcq : c = '"'
      · subst hcq; exact absurd hc (by decide)
      · simp [BEq.beq]
        intro hcontra
        exact hcq hcontra.symm
    simp [List.isPrefixOf, hne]

def trivialSearchDb : SearchDb :=
  { ftsRows := fun _ _ _ _ => Except.ok []
    likePhraseRows := fun _ _ _ => []
    likeWordRows := fun _ _ _ => []
    exampleConfigs := fun _ => []
    allNodes := [] }

def trivialHandlerDb : HandlerDb :=
  { ftsRows := fun _ _ _ _ => Except.ok []
    likeRows := fun _ _ => [] }

/-- C4 counterexample: the claim says every cited search entry point
returns an empty result set for an empty query and never raises; but
`NodeSearchHandler.searchNodes` (node-search-handler.ts lines 34-36)
throws `Search query is required` on the empty query. -/
theorem C4_counterexample_handler_throws :
    handlerSearchNodes "" 20 {} trivialHandlerDb =
      Except.error "Search query is required" := rfl

/-- C4 (amended): for every limit, options and database, a query that is
empty or whitespace-only makes `searchNodesFTS` and `searchNodesLIKE`
(the mcp handlers) return `{query, results: [], totalCount: 0}` without
an exception, in every mode; the legacy `NodeSearchHandler.searchNodes`,
however, throws `Search query is required` instead. -/
theorem C4_empty_query_amended (query : String) (limit : Nat)
    (options : SearchOptions) (db : SearchDb) (hdb : HandlerDb) (mode : SMode)
    (h : jsTrim query = "") :
    searchNodesFTS query limit mode options db = emptySearchResult query ∧
    searchNodesLIKE query limit options db = emptySearchResult query ∧
    handlerSearchNodes query limit options hdb =
      Except.error "Search query is required" := by
  have hws := all_ws_of_jsTrim_eq_empty query h
  have hwsl : ∀ c ∈ (jsToLower query).data, isWsChar c = true := by
    intro c hc
    rcases List.mem_map.mp hc with ⟨d, hd, rfl⟩
    rw [isWsChar_toLower]
    exact hws d hd
  have hwords : (jsSplitWs (jsToLower query)).filter (fun w => decide (w.length > 0)) = [] :=
    jsSplitWs_filter_all_ws _ hwsl
  have hq : strStarts query "\"" = false := strStarts_quote_of_all_ws query hws
  refine ⟨?_, ?_, ?_⟩
  · simp [searchNodesFTS, h]
  · simp [searchNodesLIKE, hq, hwords]
  · simp [handlerSearchNodes, h]

/-- C4 witness: the amended theorem applied to the whitespace query. -/
theorem C4_empty_query_amended_witness :
    searchNodesFTS "  " 20 SMode.OR {} trivialSearchDb = emptySearchResult "  " ∧
    searchNodesLIKE "  " 20 {} trivialSearchDb = emptySearchResult "  " ∧
    handlerSearchNodes "  " 20 {} trivialHandlerDb =
      Except.error "Search query is required" :=
  C4_empty_query_amended "  " 20 {} trivialSearchDb trivialHandlerDb SMode.OR (by decide)

/-! ## C6: index-query construction -/

/-- C6 counterexample: the claim says OR-mode index queries carry a prefix
wildcard per term, but the mcp handler (search-handlers.ts lines 72-83)
joins the words without any wildcard. -/
theorem C6_counterexample_no_wildcard :
    buildFtsQueryMcp "slack chat" SMode.OR = "slack OR chat" ∧
    "slack OR chat" ≠ "slack* OR chat*" := by
  constructor
  · rfl
  · decide

/-- C6 (amended): in the mcp handler a fully double-quoted query is passed
to the index verbatim and a non-quoted query is split on whitespace and
joined with `" OR "` / `" AND "` with **no** wildcards; the legacy
`NodeSearchHandler` variant appends a `*` wildcard to every
whitespace-split term and joins with `" OR "` / `" AND "`, with no
quoted-phrase special case. -/
theorem C6_fts_query_construction_amended (q : String) (mode : SMode) :
    ((strStarts q "\"" && strEnds q "\"") = true → buildFtsQueryMcp q mode = q) ∧
    ((strStarts q "\"" && strEnds q "\"") = false →
      buildFtsQueryMcp q mode =
        String.intercalate (match mode with | SMode.AND => " AND " | _ => " OR ")
          ((jsSplitWs q).filter (fun w => decide (w.length > 0)))) ∧
    handlerBuiltQuery q mode =
      String.intercalate (match mode with | SMode.AND => " AND " | _ => " OR ")
        ((jsSplitWs q).map (fun t => t ++ "*")) := by
  refine ⟨?_, ?_, ?_⟩
  · intro h
    simp [buildFtsQueryMcp, h]
  · intro h
    cases mode <;> simp [buildFtsQueryMcp, h]
  · cases mode <;> simp [handlerBuiltQuery]

/-- C6 witness: the amended theorem at concrete queries. -/
theorem C6_fts_query_construction_amended_witness :
    buildFtsQueryMcp "\"exact phrase\"" SMode.OR = "\"exact phrase\"" ∧
    buildFtsQueryMcp "slack chat" SMode.AND = "slack AND chat" ∧
    handlerBuiltQuery "slack chat" SMode.AND = "slack* AND chat*" := by
  refine ⟨?_, ?_, ?_⟩
  · exact (C6_fts_query_construction_amended "\"exact phrase\"" SMode.OR).1 (by decide)
  · rw [(C6_fts_query_construction_amended "slack chat" SMode.AND).2.1 (by decide)]
    decide
  · rw [(C6_fts_query_construction_amended "slack chat" SMode.AND).2.2]
    decide

/-! ## C5: the http guard rule -/

/-- A query containing `http` case-insensitively still contains it after
trimming, and its trim is non-empty. -/
theorem strIncludes_http_of_trim (q : String)
    (h : strIncludes (jsToLower q) "http" = true) :
    strIncludes (jsToLower (jsTrim q)) "http" = true ∧ (jsTrim q == "") = false := by
  have hinf : ("http" : String).data <:+: (q.data.map Char.toLower) :=
    (listIsInfixOf_iff _ _).mp h
  have hdata : ("http" : String).data = ['h', 't', 't', 'p'] := rfl
  have htrim : ("http" : String).data <:+: jsTrimList (q.data.map Char.toLower) := by
    apply infix_jsTrimList_of_not_ws 'h' 'p' ['t', 't', 'p'] ['t', 't', 'h']
    · exact hdata
    · rw [hdata]; rfl
    · decide
    · decide
    · exact hinf
  constructor
  · rw [strIncludes, listIsInfixOf_iff]
    show ("http" : String).data <:+: (jsTrim q).data.map Char.toLower
    rw [show (jsTrim q).data = jsTrimList q.data from rfl, map_toLower_jsTrimList]
    exact htrim
  · by_contra hcontra
    have hbeq : (jsTrim q == "") = true := by
      cases hb : (jsTrim q == "") with
      | true => rfl
      | false => exact absurd hb hcontra
    have heq : jsTrim q = "" := by
      exact eq_of_beq hbeq
    have hnil : jsTrimList q.data = [] := congrArg String.data heq
    have : jsTrimList (q.data.map Char.toLower) = [] := by
      rw [← map_toLower_jsTrimList, hnil]
      rfl
    rw [this] at htrim
    have := List.eq_nil_of_infix_nil htrim
    simp [hdata] at this

/-- Helper: the mcp FTS guard path (search-handlers.ts lines 136-140)
falls back to `searchNodesLIKE` with the original query. -/
theorem mcpFts_guard_fallback
    (query : String) (limit : Nat) (mode : SMode) (options : SearchOptions)
    (db : SearchDb) (rows : List (NodeRow × Int))
    (hmode : mode ≠ SMode.FUZZY)
    (hhttp : strIncludes (jsToLower query) "http" = true)
    (hfts : db.ftsRows (buildFtsQueryMcp (jsTrim query) mode) (jsTrim query)
      (srcOf options) limit = Except.ok rows)
    (hmiss : ∀ r ∈ rows, r.1.node_type ≠ "nodes-base.httpRequest") :
    searchNodesFTS query limit mode options db = searchNodesLIKE query limit options db := by
  obtain ⟨hh2, hne⟩ := strIncludes_http_of_trim query hhttp
  have hany : ((rows.map (fun r =>
      ScoredFtsRow.mk r.1 r.2 (calculateRelevanceScore r.1 (jsTrim query)))).mergeSort
        (ftsSortLe (jsTrim query))).any
      (fun n => n.row.node_type == "nodes-base.httpRequest") = false := by
    rw [List.any_eq_false]
    intro x hx
    have hx2 : x ∈ rows.map (fun r =>
        ScoredFtsRow.mk r.1 r.2 (calculateRelevanceScore r.1 (jsTrim query))) :=
      (List.mergeSort_perm _ _).mem_iff.mp hx
    rcases List.mem_map.mp hx2 with ⟨r, hr, rfl⟩
    simpa using hmiss r hr
  simp only [searchNodesFTS, hne, hfts, hh2, hany, hmode]
  simp

/-- Helper: the legacy handler FTS guard path (node-search-handler.ts
lines 128-134) falls back to LIKE, but passes the *built* FTS string. -/
theorem handlerFts_guard_fallback
    (ftsQuery : String) (limit : Nat) (mode : SMode) (options : SearchOptions)
    (hdb : HandlerDb) (hrows : List (NodeRow × Int))
    (hhttp2 : strIncludes (jsToLower ftsQuery) "http" = true)
    (hhfts : hdb.ftsRows (handlerBuiltQuery ftsQuery mode) ftsQuery
      (srcOf options) limit = Except.ok hrows)
    (hhmiss : ∀ r ∈ hrows, r.1.node_type ≠ "nodes-base.httpRequest") :
    handlerSearchNodesFTS ftsQuery limit mode options hdb =
      Except.ok (handlerSearchNodesLIKE (handlerBuiltQuery ftsQuery mode) limit hdb) := by
  have hany : ((hrows.map (fun r =>
      HScoredRow.mk r.1 r.2 (handlerCalculateRelevance r.1 ftsQuery))).mergeSort
        (handlerFtsSortLe ftsQuery)).any
      (fun n => n.row.node_type == "nodes-base.httpRequest") = false := by
    rw [List.any_eq_false]
    intro x hx
    have hx2 : x ∈ hrows.map (fun r =>
        HScoredRow.mk r.1 r.2 (handlerCalculateRelevance r.1 ftsQuery)) :=
      (List.mergeSort_perm _ _).mem_iff.mp hx
    rcases List.mem_map.mp hx2 with ⟨r, hr, rfl⟩
    simpa using hhmiss r hr
  simp only [handlerSearchNodesFTS, hhfts, hhttp2, hany]
  simp

/-- C5 (amended): when the query contains `http` case-insensitively and
the indexed result set has no `nodes-base.httpRequest` row, both FTS
implementations discard the indexed results and fall back to the
substring strategy — but only the mcp handler passes the original query
to `searchNodesLIKE`; the legacy `NodeSearchHandler` passes the *built*
FTS query string (wildcards and operators included) instead. -/
theorem C5_http_guard_amended
    (query ftsQuery : String) (limit : Nat) (mode : SMode) (options : SearchOptions)
    (db : SearchDb) (hdb : HandlerDb) (rows hrows : List (NodeRow × Int))
    (hmode : mode ≠ SMode.FUZZY)
    (hhttp : strIncludes (jsToLower query) "http" = true)
    (hfts : db.ftsRows (buildFtsQueryMcp (jsTrim query) mode) (jsTrim query)
      (srcOf options) limit = Except.ok rows)
    (hmiss : ∀ r ∈ rows, r.1.node_type ≠ "nodes-base.httpRequest")
    (hhttp2 : strIncludes (jsToLower ftsQuery) "http" = true)
    (hhfts : hdb.ftsRows (handlerBuiltQuery ftsQuery mode) ftsQuery
      (srcOf options) limit = Except.ok hrows)
    (hhmiss : ∀ r ∈ hrows, r.1.node_type ≠ "nodes-base.httpRequest") :
    searchNodesFTS query limit mode options db = searchNodesLIKE query limit options db ∧
    handlerSearchNodesFTS ftsQuery limit mode options hdb =
      Except.ok (handlerSearchNodesLIKE (handlerBuiltQuery ftsQuery mode) limit hdb) :=
  ⟨mcpFts_guard_fallback query limit mode options db rows hmode hhttp hfts hmiss,
   handlerFts_guard_fallback ftsQuery limit mode options hdb hrows hhttp2 hhfts hhmiss⟩

/-- C5 witness: the amended theorem at query `http` against a database
whose index returns no rows. -/
theorem C5_http_guard_amended_witness :
    searchNodesFTS "http" 5 SMode.OR {} trivialSearchDb =
      searchNodesLIKE "http" 5 {} trivialSearchDb ∧
    handlerSearchNodesFTS "http" 5 SMode.OR {} trivialHandlerDb =
      Except.ok (handlerSearchNodesLIKE (handlerBuiltQuery "http" SMode.OR) 5
        trivialHandlerDb) :=
  C5_http_guard_amended "http" "http" 5 SMode.OR {} trivialSearchDb trivialHandlerDb
    [] [] (by decide) (by decide) rfl (by intro r hr; simp at hr)
    (by decide) rfl (by intro r hr; simp at hr)

/-- A node whose description mentions http (matched by a LIKE search for
`http` but not by one for `http*`). -/
def c5Row : NodeRow :=
  { node_type := "nodes-base.slack"
    display_name := "Slack"
    description := some "Send messages via http"
    category := none
    package_name := "n8n-nodes-base" }

/-- A handler database: the index never returns rows, the LIKE query
matches `c5Row` exactly for the cleaned query `http`. -/
def c5HandlerDb : HandlerDb :=
  { ftsRows := fun _ _ _ _ => Except.ok []
    likeRows := fun cq _ => if cq == "http" then [c5Row] else [] }

/-- C5 counterexample: for the query `http` (which contains `http` and
whose indexed result set lacks the HTTP-request node), the legacy
`NodeSearchHandler.searchNodesFTS` does *not* return the substring
strategy's results for that query: it hands the built FTS string
`http*` to the LIKE search, whose result (here: empty, with the echoed
query `http*`) differs from the LIKE results for `http` (one row). -/
theorem C5_counterexample_handler_wrong_query :
    handlerSearchNodesFTS "http" 20 SMode.OR {} c5HandlerDb ≠
      Except.ok (handlerSearchNodesLIKE "http" 20 c5HandlerDb) := by
  have hc5 := handlerFts_guard_fallback "http" 20 SMode.OR {} c5HandlerDb []
    (by decide) rfl (by intro r hr; simp at hr)
  rw [hc5]
  have hbuilt : handlerBuiltQuery "http" SMode.OR = "http*" := by decide
  rw [hbuilt]
  simp only [handlerSearchNodesLIKE]
  intro hcontra
  have h1 := congrArg (fun v => match v with
    | Except.ok r => jGet r "query"
    | Except.error _ => none) hcontra
  simp [jGet, jLookup] at h1

/-! ## C7: the fuzzy strategy -/

/-- Provenance of the fuzzy pipeline: every pair surviving filter, sort and
slice carries the fuzzy score of its own node and passed the 200 floor. -/
theorem fuzzyMatching_pairs_sound (db : SearchDb) (query : String) (limit : Nat) :
    ∀ p ∈ ((((fuzzyScored db query).filter
        (fun it => decide ((200 : ℚ) ≤ it.2))).mergeSort fuzzyLe).take limit),
      p.2 = calculateFuzzyScore p.1 query ∧ (200 : ℚ) ≤ p.2 := by
  intro p hp
  have hp1 : p ∈ ((fuzzyScored db query).filter
      (fun it => decide ((200 : ℚ) ≤ it.2))).mergeSort fuzzyLe :=
    List.mem_of_mem_take hp
  have hp2 : p ∈ (fuzzyScored db query).filter (fun it => decide ((200 : ℚ) ≤ it.2)) :=
    (List.mergeSort_perm _ _).mem_iff.mp hp1
  rcases List.mem_filter.mp hp2 with ⟨hp3, hfloor⟩
  rcases List.mem_map.mp hp3 with ⟨n, _, rfl⟩
  exact ⟨rfl, by simpa using hfloor⟩

/-- C7: the fuzzy strategy is dispatched exactly in `FUZZY` mode — for any
other mode the result of `searchNodesFTS` does not depend on the fuzzy
candidate pool at all (and the automatic fallbacks go to the LIKE path,
which likewise never reads it); every returned candidate scores at least
the 200 similarity floor, the results are ordered by fuzzy score
descending, at most `limit` are returned, and a candidate whose display
name or prefix-stripped node type equals the query (the source compares
both lowercased) scores exactly 1000. -/
theorem C7_fuzzy_strategy (query : String) (limit : Nat) (options : SearchOptions)
    (db : SearchDb) (mode : SMode) (node : NodeRow) :
    ((jsTrim query == "") = false →
      searchNodesFTS query limit SMode.FUZZY options db =
        searchNodesFuzzy (jsTrim query) limit db) ∧
    (mode ≠ SMode.FUZZY → ∀ pool : List NodeRow,
      searchNodesFTS query limit mode options { db with allNodes := pool } =
        searchNodesFTS query limit mode options db) ∧
    (∀ n ∈ fuzzyMatchingNodes db query limit, (200 : ℚ) ≤ calculateFuzzyScore n query) ∧
    List.Pairwise (fun a b : NodeRow =>
        calculateFuzzyScore b query ≤ calculateFuzzyScore a query)
      (fuzzyMatchingNodes db query limit) ∧
    (fuzzyMatchingNodes db query limit).length ≤ limit ∧
    ((jsToLower node.display_name == jsToLower query ||
        stripPkgPrefixes (jsToLower node.node_type) == jsToLower query) = true →
      calculateFuzzyScore node query = 1000) := by
  refine ⟨?_, ?_, ?_, ?_, ?_, ?_⟩
  · intro hq
    simp [searchNodesFTS, hq]
  · intro hm pool
    unfold searchNodesFTS
    simp only [if_neg hm]
    rfl
  · intro n hn
    rcases List.mem_map.mp hn with ⟨p, hp, rfl⟩
    rcases fuzzyMatching_pairs_sound db query limit p hp with ⟨hscore, hfloor⟩
    rw [← hscore]
    exact hfloor
  · unfold fuzzyMatchingNodes
    rw [List.pairwise_map]
    have hsorted : List.Pairwise (fun a b => fuzzyLe a b = true)
        (((fuzzyScored db query).filter
          (fun it => decide ((200 : ℚ) ≤ it.2))).mergeSort fuzzyLe) := by
      apply List.sorted_mergeSort
      · intro a b c hab hbc
        simp only [fuzzyLe, decide_eq_true_eq] at *
        exact le_trans hbc hab
      · intro a b
        simp only [fuzzyLe, Bool.or_eq_true, decide_eq_true_eq]
        exact le_total b.2 a.2
    have htaken : List.Pairwise (fun a b => fuzzyLe a b = true)
        ((((fuzzyScored db query).filter
          (fun it => decide ((200 : ℚ) ≤ it.2))).mergeSort fuzzyLe).take limit) :=
      List.Pairwise.sublist (List.take_sublist _ _) hsorted
    apply htaken.imp_of_mem
    intro a b ha hb hab
    have ha2 := (fuzzyMatching_pairs_sound db query limit a ha).1
    have hb2 := (fuzzyMatching_pairs_sound db query limit b hb).1
    simp only [fuzzyLe, decide_eq_true_eq] at hab
    rw [← ha2, ← hb2]
    exact hab
  · unfold fuzzyMatchingNodes
    rw [List.length_map, List.length_take]
    exact min_le_left _ _
  · intro h
    unfold calculateFuzzyScore
    rw [if_pos h]

def c7Node : NodeRow :=
  { node_type := "nodes-base.slack"
    display_name := "Slack"
    description := none
    category := none
    package_name := "n8n-nodes-base" }

/-- C7 witness: the fuzzy dispatch, the pool-independence of a non-fuzzy
mode, and the exact-match score at concrete inputs. -/
theorem C7_fuzzy_strategy_witness :
    searchNodesFTS "slak" 10 SMode.FUZZY {} trivialSearchDb =
      searchNodesFuzzy (jsTrim "slak") 10 trivialSearchDb ∧
    searchNodesFTS "slak" 10 SMode.OR {} { trivialSearchDb with allNodes := [c7Node] } =
      searchNodesFTS "slak" 10 SMode.OR {} trivialSearchDb ∧
    calculateFuzzyScore c7Node "slack" = 1000 := by
  refine ⟨?_, ?_, ?_⟩
  · exact (C7_fuzzy_strategy "slak" 10 {} trivialSearchDb SMode.OR c7Node).1 (by decide)
  · exact (C7_fuzzy_strategy "slak" 10 {} trivialSearchDb SMode.OR c7Node).2.1
      (by decide) [c7Node]
  · exact (C7_fuzzy_strategy "slack" 10 {} trivialSearchDb SMode.OR c7Node).2.2.2.2.2
      (by decide)

/-! ## C3: the relevance scorers of the two strategies -/

/-- Helper: outside the queries that mention both `http` and `call`, the
indexed-path scorer and the substring-path base scorer agree (the two
850 tiers are tested in opposite order, but they are mutually
exclusive). -/
theorem calcRelevanceScore_eq_rankBase (node : NodeRow) (query : String)
    (h : ¬(strIncludes (jsToLower query) "http" = true ∧
      strIncludes (jsToLower query) "call" = true)) :
    calculateRelevanceScore node query = rankBaseScore node query := by
  simp only [calculateRelevanceScore, rankBaseScore]
  cases hh : strIncludes (jsToLower query) "http" <;>
  cases hcall : strIncludes (jsToLower query) "call" <;>
  cases hw : strIncludes (jsToLower query) "webhook" <;>
  cases ht1 : (node.node_type == "nodes-base.httpRequest") <;>
  cases ht2 : (node.node_type == "nodes-base.webhook") <;>
    simp only [hh, hcall, hw, ht1, ht2, Bool.and_true, Bool.and_false,
      Bool.true_and, Bool.false_and, Bool.or_true, Bool.or_false,
      eq_self_iff_true, Bool.false_eq_true, if_true, if_false] <;>
    exact (h ⟨hh, hcall⟩).elim

/-- Helper: on single-word queries the substring scorer adds no bonus. -/
theorem rankNodeScore_single_word (node : NodeRow) (query : String)
    (h : ((jsSplitWs (jsToLower query)).filter
      (fun w => decide (w.length > 0))).length ≤ 1) :
    rankNodeScore node query = rankBaseScore node query := by
  unfold rankNodeScore
  rw [if_neg (by omega)]

/-- Helper: every pair surviving the substring-path ranking pipeline
carries the rank score of its own node. -/
theorem rankPipeline_pairs_sound (nodes : List NodeRow) (query : String) (limit : Nat) :
    ∀ p ∈ (((nodes.map (fun node => (node, rankNodeScore node query))).mergeSort
        rankLe).take limit),
      p.2 = rankNodeScore p.1 query := by
  intro p hp
  have hp1 := List.mem_of_mem_take hp
  have hp2 : p ∈ nodes.map (fun node => (node, rankNodeScore node query)) :=
    (List.mergeSort_perm _ _).mem_iff.mp hp1
  rcases List.mem_map.mp hp2 with ⟨n, _, rfl⟩
  rfl

/-- C3 counterexample: the two strategies do not share one scorer.  For
the query `call to http` against the HTTP-request node, the indexed
scorer gives 890 (its extra http∧call tier) while the substring scorer
gives 850 (no such tier, and the multi-word bonus does not apply). -/
def c3HttpNode : NodeRow :=
  { node_type := "nodes-base.httpRequest"
    display_name := "HTTP Request"
    description := some "Makes HTTP requests"
    category := none
    package_name := "n8n-nodes-base" }

theorem C3_counterexample_scorers_differ :
    calculateRelevanceScore c3HttpNode "call to http" = 890 ∧
    rankNodeScore c3HttpNode "call to http" = 850 ∧ (890 : Nat) ≠ 850 := by
  refine ⟨by decide, by decide, by decide⟩

/-- C3 (amended): the indexed and substring strategies use similar but
distinct scorers.  They agree on every query that does not mention both
`http` and `call` (where the indexed scorer has an extra 890 tier); only
the substring scorer adds the flat +200/+100 multi-word bonus (and the
920 `http call` override), so on single-word queries it equals the shared
base chain; and the substring strategy (alone) orders its results by
score descending with ties broken by display-name order, returning at
most `limit` results. -/
theorem C3_relevance_scorer_amended (node : NodeRow) (query : String)
    (nodes : List NodeRow) (limit : Nat) :
    (¬(strIncludes (jsToLower query) "http" = true ∧
        strIncludes (jsToLower query) "call" = true) →
      calculateRelevanceScore node query = rankBaseScore node query) ∧
    (((jsSplitWs (jsToLower query)).filter
        (fun w => decide (w.length > 0))).length ≤ 1 →
      rankNodeScore node query = rankBaseScore node query) ∧
    List.Pairwise (fun a b : NodeRow =>
        rankNodeScore b query < rankNodeScore a query ∨
        (rankNodeScore a query = rankNodeScore b query ∧
          a.display_name ≤ b.display_name))
      (rankSearchResults nodes query limit) ∧
    (rankSearchResults nodes query limit).length ≤ limit := by
  refine ⟨calcRelevanceScore_eq_rankBase node query,
    rankNodeScore_single_word node query, ?_, ?_⟩
  · unfold rankSearchResults
    rw [List.pairwise_map]
    have hsorted : List.Pairwise (fun a b => rankLe a b = true)
        ((nodes.map (fun node => (node, rankNodeScore node query))).mergeSort rankLe) := by
      apply List.sorted_mergeSort
      · intro a b c hab hbc
        simp only [rankLe, Bool.or_eq_true, Bool.and_eq_true, decide_eq_true_eq,
          beq_iff_eq] at *
        rcases hab with h1 | ⟨h1, h1'⟩ <;> rcases hbc with h2 | ⟨h2, h2'⟩
        · exact Or.inl (by omega)
        · exact Or.inl (by omega)
        · exact Or.inl (by omega)
        · exact Or.inr ⟨by omega, le_trans h1' h2'⟩
      · intro a b
        simp only [rankLe, Bool.or_eq_true, Bool.and_eq_true, decide_eq_true_eq,
          beq_iff_eq]
        rcases Nat.lt_trichotomy a.2 b.2 with h | h | h
        · exact Or.inr (Or.inl h)
        · rcases le_total a.1.display_name b.1.display_name with h2 | h2
          · exact Or.inl (Or.inr ⟨h, h2⟩)
          · exact Or.inr (Or.inr ⟨h.symm, h2⟩)
        · exact Or.inl (Or.inl h)
    have htaken := List.Pairwise.sublist (List.take_sublist limit _) hsorted
    apply htaken.imp_of_mem
    intro a b ha hb hab
    have ha2 := rankPipeline_pairs_sound nodes query limit a ha
    have hb2 := rankPipeline_pairs_sound nodes query limit b hb
    simp only [rankLe, Bool.or_eq_true, Bool.and_eq_true, decide_eq_true_eq,
      beq_iff_eq] at hab
    rcases hab with h1 | ⟨h1, h2⟩
    · exact Or.inl (by rw [← ha2, ← hb2]; exact h1)
    · exact Or.inr ⟨by rw [← ha2, ← hb2]; exact h1.symm ▸ rfl, h2⟩
  · unfold rankSearchResults
    rw [List.length_map, List.length_take]
    exact min_le_left _ _

/-- C3 witness: the amended theorem at concrete inputs. -/
theorem C3_relevance_scorer_amended_witness :
    calculateRelevanceScore c3HttpNode "slack" = rankBaseScore c3HttpNode "slack" ∧
    rankNodeScore c3HttpNode "slack" = rankBaseScore c3HttpNode "slack" ∧
    (rankSearchResults [c3HttpNode] "slack" 5).length ≤ 5 := by
  refine ⟨(C3_relevance_scorer_amended c3HttpNode "slack" [c3HttpNode] 5).1 (by decide),
    (C3_relevance_scorer_amended c3HttpNode "slack" [c3HttpNode] 5).2.1 (by decide),
    (C3_relevance_scorer_amended c3HttpNode "slack" [c3HttpNode] 5).2.2.2⟩

/-! ## Configuration validation (src/mcp/handlers/node-handlers.ts, part of
the unnamed handler files)

A node configuration is a JS object: an association list with first-match
lookup. -/

abbrev Config := List (String × J)

/-- One conditional-visibility condition: equality with a value, membership
in a list of accepted values, or a `_cnd`-style numeric comparison.
Modelled from the spec: the `ConfigValidator` (services/config-validator.ts)
is not among the repository files provided; §4.1 of the spec fixes its
contract (`hide` first, then all-of `show`; equality, set-membership and
numeric comparators; a missing key never satisfies a condition). -/
inductive CondSpec where
  | val (v : J)
  | list (vs : List J)
  | gte (n : ℚ)
deriving Repr

/-- `displayOptions` of a property (`show` / `hide` maps; the field names
carry a `Conds` suffix because `show` is a Lean keyword). -/
structure DisplayOptions where
  showConds : Option (List (String × CondSpec)) := none
  hideConds : Option (List (String × CondSpec)) := none
deriving Repr

/-- One configurable property of a node (types/common-types.ts,
`NodeProperty`), restricted to the fields the embedded handlers read. -/
structure NodeProperty where
  name : String
  displayName : String
  type : String := "string"
  required : Bool := false
  description : Option String := none
  default : Option J := none
  options : Option J := none
  displayOptions : Option DisplayOptions := none
  path : Option String := none
  showWhen : Option J := none
deriving Repr

/-- Modelled from the spec (§4.1): is one `show`/`hide` condition satisfied
by the configuration?  A missing key never satisfies a condition. -/
def condSatisfied (config : Config) (k : String) (c : CondSpec) : Bool :=
  match jLookup config k with
  | none => false
  | some v =>
    match c with
    | CondSpec.val w => jBeq v w
    | CondSpec.list ws => ws.any (fun w => jBeq v w)
    | CondSpec.gte n =>
      match v with
      | J.num q => decide (n ≤ q)
      | _ => false

/-- Modelled from the spec (§4.1): `ConfigValidator.isPropertyVisible`.
No `displayOptions` means always visible; any satisfied `hide` condition
hides the property; otherwise every `show` condition must hold. -/
def isPropertyVisible (prop : NodeProperty) (config : Config) : Bool :=
  match prop.displayOptions with
  | none => true
  | some d =>
    if (d.hideConds.getD []).any (fun kc => condSatisfied config kc.1 kc.2) then false
    else
      match d.showConds with
      | none => true
      | some conds => conds.all (fun kc => condSatisfied config kc.1 kc.2)

/-- JS `v || dflt` on JSON values. -/
def jsOrJ (v : Option J) (dflt : J) : J :=
  match v with
  | some x => if jsFalsy x then dflt else x
  | none => dflt

/-- `{'@version': node.version || 1, ...config}` with first-match lookup:
appending the injected binding at the end makes any `@version` key of the
config itself take precedence, exactly as the JS spread does. -/
def configWithVersion (config : Config) (version : Option J) : Config :=
  config ++ [("@version", jsOrJ version (J.num 1))]

/-- The required-field loop of `validateNodeMinimal` (node-handlers.ts
lines 1205-1217): skip non-required properties, skip properties whose
`displayOptions` make them invisible under the `@version`-augmented
working config, and report (by `displayName || name`) every remaining
property whose `name` is not a key of the original config. -/
def collectMissing (props : List NodeProperty) (config : Config) (version : Option J) :
    List String :=
  match props with
  | [] => []
  | prop :: rest =>
    if !prop.required then collectMissing rest config version
    else if prop.displayOptions.isSome &&
        !(isPropertyVisible prop (configWithVersion config version)) then
      collectMissing rest config version
    else if (jLookup config prop.name).isSome then collectMissing rest config version
    else jsOrStr prop.displayName prop.name :: collectMissing rest config version

/-- The claim's reading of the working config: the synthetic `@version`
key is set to the node's version (default 1) unconditionally, also when
the config itself carries an `@version` key. -/
def claimConfigWithVersion (config : Config) (version : Option J) : Config :=
  ("@version", jsOrJ version (J.num 1)) :: config

/-- The missing-required-field set exactly as claim C1 words it. -/
def claimMissingRequired (props : List NodeProperty) (config : Config)
    (version : Option J) : List String :=
  (props.filter (fun p => p.required &&
    (p.displayOptions.isNone || isPropertyVisible p (claimConfigWithVersion config version)) &&
    !(jLookup config p.name).isSome)).map (fun p => jsOrStr p.displayName p.name)

/-- A parsed node record as returned by `NodeRepository.getNode`
(external collaborator; field set follows the handlers' reads). -/
structure RepoNode where
  nodeType : String
  displayName : String
  description : Option String := none
  category : Option String := none
  package : Option String := none
  version : Option J := none
  properties : List NodeProperty := []
  isAITool : Option Bool := none
  isTrigger : Option Bool := none
  isWebhook : Option Bool := none
  isVersioned : Option Bool := none
  outputNames : Option (List String) := none
  operations : List J := []
  credentials : Option J := none
  isToolVariant : Option Bool := none
  hasToolVariant : Option Bool := none
  toolVariantOf : Option String := none
  developmentStyle : Option String := none
deriving Repr

/-- The external collaborators of the node lookup: the repository, the
type normalizer (`NodeTypeNormalizer.normalizeToFullForm`) and the
alternative-identifier generator (`getNodeTypeAlternatives`), both from
utils files not among the repository files provided; they stay abstract
because every claim quantifies over them. -/
structure LookupEnv where
  repo : String → Option RepoNode
  normalize : String → String
  alternatives : String → List String

/-- First hit of the alternative-identifier loop. -/
def firstFound (repo : String → Option RepoNode) : List String → Option RepoNode
  | [] => none
  | alt :: rest =>
    match repo alt with
    | some n => some n
    | none => firstFound repo rest

/-- The three-stage lookup shared by the node handlers (normalized form,
then the original form if normalization changed it, then every
alternative identifier). -/
def resolveNode (env : LookupEnv) (nodeType : String) : Option RepoNode :=
  let normalizedType := env.normalize nodeType
  let n1 := env.repo normalizedType
  let n2 := if n1.isNone && !(normalizedType == nodeType) then env.repo nodeType else n1
  match n2 with
  | some n => some n
  | none => firstFound env.repo (env.alternatives normalizedType)

/-- The result object of `validateNodeMinimal` (node-handlers.ts lines
1219-1224). -/
structure MinimalResult where
  nodeType : String
  displayName : String
  valid : Bool
  missingRequiredFields : List String
deriving Repr

/-- `validateNodeMinimal` (node-handlers.ts lines 1168-1225). -/
def validateNodeMinimal (env : LookupEnv) (nodeType : String) (config : Config) :
    Except String MinimalResult :=
  match resolveNode env nodeType with
  | none => Except.error ("Node " ++ nodeType ++ " not found")
  | some node =>
    let properties := node.properties
    let missingFields := collectMissing properties config node.version
    Except.ok
      { nodeType := node.nodeType
        displayName := node.displayName
        valid := missingFields.length == 0
        missingRequiredFields := missingFields }

/-- The structured result of `EnhancedConfigValidator.validateWithMode`
(an external collaborator of the handlers; the service itself is not
among the repository files provided). -/
structure ValidationResultRec where
  valid : Bool
  errors : List J
  warnings : List J
  suggestions : List J
deriving Repr

/-- `validateNodeConfig` (node-handlers.ts lines 1230-1289), with the
enhanced validator passed in as a function. -/
def validateNodeConfig (env : LookupEnv)
    (vWM : String → Config → List NodeProperty → String → String → ValidationResultRec)
    (nodeType : String) (config : Config) (mode profile : String) : Except String J :=
  match resolveNode env nodeType with
  | none => Except.error ("Node " ++ nodeType ++ " not found")
  | some node =>
    let properties := node.properties
    let cwv := configWithVersion config node.version
    let validationResult := vWM node.nodeType cwv properties mode profile
    Except.ok (J.obj
      [("nodeType", J.str node.nodeType),
       ("workflowNodeType", J.str (getWorkflowNodeType (node.package.getD "") node.nodeType)),
       ("displayName", J.str node.displayName),
       ("valid", J.bool validationResult.valid),
       ("errors", J.arr validationResult.errors),
       ("warnings", J.arr validationResult.warnings),
       ("suggestions", J.arr validationResult.suggestions),
       ("summary", J.obj
         [("hasErrors", J.bool (!validationResult.valid)),
          ("errorCount", J.num validationResult.errors.length),
          ("warningCount", J.num validationResult.warnings.length),
          ("suggestionCount", J.num validationResult.suggestions.length)])])

/-- One `matches` entry of `searchNodeProperties` (lines 1081-1091). -/
def propMatchJ (m : NodeProperty) : J :=
  J.obj [("name", J.str m.name),
    ("displayName", J.str m.displayName),
    ("type", J.str m.type),
    ("description", jStrOpt m.description),
    ("path", J.str (jsOrStr (m.path.getD "") m.name)),
    ("required", J.bool m.required),
    ("default", (m.default.getD J.null)),
    ("options", (m.options.getD J.null)),
    ("showWhen", (m.showWhen.getD J.null))]

/-- `searchNodeProperties` (node-handlers.ts lines 1044-1095), with
`PropertyFilter.searchProperties` (an external service not among the
repository files provided) passed in as a function. -/
def searchNodeProperties (env : LookupEnv)
    (searchProps : List NodeProperty → String → Nat → List NodeProperty)
    (nodeType query : String) (maxResults : Nat) : Except String J :=
  match resolveNode env nodeType with
  | none => Except.error ("Node " ++ nodeType ++ " not found")
  | some node =>
    let allProperties := node.properties
    let found := searchProps allProperties query maxResults
    Except.ok (J.obj
      [("nodeType", J.str node.nodeType),
       ("query", J.str query),
       ("matches", J.arr (found.map propMatchJ)),
       ("totalMatches", J.num found.length),
       ("searchedIn", J.str (toString allProperties.length ++ " properties"))])

/-- `getCommonAIToolUseCases` (utility-handlers, part_004 lines 322-374):
first use-case list whose key occurs in the node type, else the default
list (`Object.entries` iterates in insertion order, so the map literal
becomes an if-chain). -/
def getCommonAIToolUseCases (nodeType : String) : List String :=
  if strIncludes nodeType "nodes-base.slack" then
    ["Send notifications about task completion",
     "Post updates to channels",
     "Send direct messages",
     "Create alerts and reminders"]
  else if strIncludes nodeType "nodes-base.googleSheets" then
    ["Read data for analysis",
     "Log results and outputs",
     "Update spreadsheet records",
     "Create reports"]
  else if strIncludes nodeType "nodes-base.gmail" then
    ["Send email notifications",
     "Read and process emails",
     "Send reports and summaries",
     "Handle email-based workflows"]
  else if strIncludes nodeType "nodes-base.httpRequest" then
    ["Call external APIs",
     "Fetch data from web services",
     "Send webhooks",
     "Integrate with any REST API"]
  else if strIncludes nodeType "nodes-base.postgres" then
    ["Query database for information",
     "Store analysis results",
     "Update records based on AI decisions",
     "Generate reports from data"]
  else if strIncludes nodeType "nodes-base.webhook" then
    ["Receive external triggers",
     "Create callback endpoints",
     "Handle incoming data",
     "Integrate with external systems"]
  else
    ["Perform automated actions",
     "Integrate with external services",
     "Process and transform data",
     "Extend AI agent capabilities"]

structure OutputDesc where
  description : String
  connectionGuidance : String
deriving Repr

/-- `getOutputDescriptions` (utility-handlers, part_004 lines 273-317). -/
def getOutputDescriptions (nodeType outputName : String) (index : Nat) : OutputDesc :=
  if nodeType == "nodes-base.splitInBatches" && outputName == "done" && index == 0 then
    { description := "Final processed data after all iterations complete"
      connectionGuidance := "Connect to nodes that should run AFTER the loop completes" }
  else if nodeType == "nodes-base.splitInBatches" && outputName == "loop" && index == 1 then
    { description := "Current batch data for this iteration"
      connectionGuidance :=
        "Connect to nodes that process items INSIDE the loop (and connect their output back to this node)" }
  else if nodeType == "nodes-base.if" && outputName == "true" && index == 0 then
    { description := "Items that match the condition"
      connectionGuidance := "Connect to nodes that handle the TRUE case" }
  else if nodeType == "nodes-base.if" && outputName == "false" && index == 1 then
    { description := "Items that do not match the condition"
      connectionGuidance := "Connect to nodes that handle the FALSE case" }
  else if nodeType == "nodes-base.switch" then
    { description := "Output " ++ toString index ++ ": " ++
        jsOrStr outputName ("Route " ++ toString index)
      connectionGuidance := "Connect to nodes for the \"" ++
        jsOrStr outputName ("route " ++ toString index) ++ "\" case" }
  else
    { description := jsOrStr outputName ("Output " ++ toString index)
      connectionGuidance := "Connect to downstream nodes" }

/-- `buildToolVariantGuidance` (utility-handlers, part_004 lines 379-410);
a JS template literal renders an undefined `toolVariantOf` as the string
`undefined`. -/
def buildToolVariantGuidance (node : RepoNode) : Option J :=
  let isToolVariant := node.isToolVariant.getD false
  let hasToolVariant := node.hasToolVariant.getD false
  if !isToolVariant && !hasToolVariant then none
  else if isToolVariant then
    some (J.obj [("isToolVariant", J.bool true),
      ("toolVariantOf", jStrOpt node.toolVariantOf),
      ("hasToolVariant", J.bool false),
      ("guidance", J.str ("This is the Tool variant for AI Agent integration. Use this node type when connecting to AI Agents. The base node is: " ++
        node.toolVariantOf.getD "undefined"))])
  else if hasToolVariant && !(node.nodeType == "") then
    some (J.obj [("isToolVariant", J.bool false),
      ("hasToolVariant", J.bool true),
      ("toolVariantNodeType", J.str (node.nodeType ++ "Tool")),
      ("guidance", J.str ("To use this node with AI Agents, use the Tool variant: " ++
        node.nodeType ++ "Tool. The Tool variant has an additional 'toolDescription' property and outputs 'ai_tool' instead of 'main'."))])
  else none

/-- Serialization of one property for the `...node` spread. -/
def propJ (p : NodeProperty) : J :=
  J.obj [("name", J.str p.name), ("displayName", J.str p.displayName),
    ("type", J.str p.type), ("description", jStrOpt p.description),
    ("required", J.bool p.required), ("default", p.default.getD J.null)]

def jBoolOpt : Option Bool → J
  | some b => J.bool b
  | none => J.null

/-- The `...node` spread of `getNodeInfo`'s result object. -/
def repoNodeFields (node : RepoNode) : List (String × J) :=
  [("nodeType", J.str node.nodeType),
   ("displayName", J.str node.displayName),
   ("description", jStrOpt node.description),
   ("category", jStrOpt node.category),
   ("package", jStrOpt node.package),
   ("version", node.version.getD J.null),
   ("properties", J.arr (node.properties.map propJ)),
   ("operations", J.arr node.operations),
   ("credentials", node.credentials.getD J.null),
   ("isAITool", jBoolOpt node.isAITool),
   ("isTrigger", jBoolOpt node.isTrigger),
   ("isWebhook", jBoolOpt node.isWebhook),
   ("isVersioned", jBoolOpt node.isVersioned),
   ("developmentStyle", jStrOpt node.developmentStyle)]

/-- `getNodeInfo` (node-handlers.ts lines 408-474). -/
def getNodeInfo (env : LookupEnv) (nodeType : String) : Except String J :=
  match resolveNode env nodeType with
  | none => Except.error ("Node " ++ nodeType ++ " not found")
  | some node =>
    let aiToolCapabilities := J.obj
      [("canBeUsedAsTool", J.bool true),
       ("hasUsableAsToolProperty", J.bool (node.isAITool.getD false)),
       ("requiresEnvironmentVariable", J.bool
         (!(node.isAITool.getD false) && !(node.package == some "n8n-nodes-base"))),
       ("toolConnectionType", J.str "ai_tool"),
       ("commonToolUseCases", J.arr ((getCommonAIToolUseCases node.nodeType).map J.str)),
       ("environmentRequirement",
         match node.package with
         | some p =>
           if !(p == "") && !(p == "n8n-nodes-base") then
             J.str "N8N_COMMUNITY_PACKAGES_ALLOW_TOOL_USAGE=true"
           else J.null
         | none => J.null)]
    let outputs : Option J :=
      match node.outputNames with
      | some names =>
        if names.length > 0 then
          some (J.arr (names.enum.map (fun p =>
            J.obj [("index", J.num p.1),
              ("name", J.str p.2),
              ("description", J.str (getOutputDescriptions node.nodeType p.2 p.1).description),
              ("connectionGuidance",
                J.str (getOutputDescriptions node.nodeType p.2 p.1).connectionGuidance)])))
        else none
      | none => none
    Except.ok (J.obj (repoNodeFields node ++
      [("workflowNodeType",
        J.str (getWorkflowNodeType (node.package.getD "n8n-nodes-base") node.nodeType)),
       ("aiToolCapabilities", aiToolCapabilities)] ++
      (match outputs with
       | some o => [("outputs", o)]
       | none => []) ++
      (match buildToolVariantGuidance node with
       | some tv => [("toolVariantInfo", tv)]
       | none => [])))

/-! ## Workflow validation handler (part_004, `validateWorkflow`) -/

/-- One error or warning of the inner `WorkflowValidator`. -/
structure WfIssue where
  nodeName : String := ""
  message : String
  details : Option J := none
deriving Repr

structure WfStats where
  totalNodes : ℚ := 0
  enabledNodes : ℚ := 0
  triggerNodes : ℚ := 0
  validConnections : ℚ := 0
  invalidConnections : ℚ := 0
  expressionsValidated : ℚ := 0
deriving Repr

/-- The result of `WorkflowValidator.validateWorkflow`.  Modelled from the
spec: the `WorkflowValidator` service itself is not among the repository
files provided; §4.3/§8 fix its result shape
`{valid, errors, warnings, suggestions, statistics}` and that it returns
(rather than throws) for well-formed workflow objects. -/
structure WfResult where
  valid : Bool
  errors : List WfIssue
  warnings : List WfIssue
  suggestions : List J
  statistics : WfStats
deriving Repr

def wfIssueJ (e : WfIssue) : J :=
  J.obj [("node", J.str (jsOrStr e.nodeName "workflow")),
    ("message", J.str e.message),
    ("details", e.details.getD J.null)]

/-- `validateWorkflow` (part_004 lines 498-618): three input-shape gates,
then the inner validator's result is re-shaped.  `exampleStr` stands for
`getWorkflowExampleString()` (workflow-examples is not among the
repository files provided). -/
def validateWorkflowHandler (workflow : J) (inner : J → WfResult)
    (exampleStr : String) : J :=
  if jsFalsy workflow || !(jsTypeof workflow == "object") then
    J.obj [("valid", J.bool false),
      ("errors", J.arr [J.obj [("node", J.str "workflow"),
        ("message", J.str "Workflow must be an object with nodes and connections"),
        ("details", J.str ("Expected format: " ++ exampleStr))]]),
      ("summary", J.obj [("errorCount", J.num 1)])]
  else if !(match jGet workflow "nodes" with
      | some (J.arr _) => true
      | _ => false) then
    J.obj [("valid", J.bool false),
      ("errors", J.arr [J.obj [("node", J.str "workflow"),
        ("message", J.str "Workflow must have a nodes array"),
        ("details", J.str ("Expected: workflow.nodes = [array of node objects]. " ++ exampleStr))]]),
      ("summary", J.obj [("errorCount", J.num 1)])]
  else if !(match jGet workflow "connections" with
      | some (J.obj _) => true
      | some (J.arr _) => true
      | _ => false) then
    J.obj [("valid", J.bool false),
      ("errors", J.arr [J.obj [("node", J.str "workflow"),
        ("message", J.str "Workflow must have a connections object"),
        ("details", J.str ("Expected: workflow.connections = \x7b\x7d (can be empty object). " ++ exampleStr))]]),
      ("summary", J.obj [("errorCount", J.num 1)])]
  else
    let result := inner workflow
    J.obj ([("valid", J.bool result.valid),
      ("summary", J.obj
        [("totalNodes", J.num result.statistics.totalNodes),
         ("enabledNodes", J.num result.statistics.enabledNodes),
         ("triggerNodes", J.num result.statistics.triggerNodes),
         ("validConnections", J.num result.statistics.validConnections),
         ("invalidConnections", J.num result.statistics.invalidConnections),
         ("expressionsValidated", J.num result.statistics.expressionsValidated),
         ("errorCount", J.num result.errors.length),
         ("warningCount", J.num result.warnings.length)]),
      ("errors", J.arr (result.errors.map wfIssueJ)),
      ("warnings", J.arr (result.warnings.map wfIssueJ))] ++
      (if result.suggestions.length > 0 then [("suggestions", J.arr result.suggestions)]
       else []))

/-! ## The `validate_node` tool-execution branch (part_003,
`ToolExecutionHandler.executeTool`, lines 93-139) -/

/-- `validateToolParams` (part_003 lines 280-289): the first required
parameter that is missing, `undefined` or `null`. -/
def argCheck (args : Config) : List String → Option String
  | [] => none
  | p :: rest =>
    match jLookup args p with
    | none => some p
    | some J.null => some p
    | some _ => argCheck args rest

/-- The minimal-mode fallback object for a non-object config (lines
99-107). -/
def validateNodeFallbackMinimal (args : Config) : J :=
  J.obj [("nodeType", jsOrJ (jLookup args "nodeType") (J.str "unknown")),
    ("displayName", J.str "Unknown Node"),
    ("valid", J.bool false),
    ("missingRequiredFields", J.arr
      [J.str "Invalid config format - expected object",
       J.str "🔧 RECOVERY: Use format \x7b \"resource\": \"...\", \"operation\": \"...\" \x7d or \x7b\x7d for empty config"])]

/-- The full-mode fallback object for a non-object config (lines
109-133). -/
def validateNodeFallbackFull (args : Config) : J :=
  J.obj [("nodeType", jsOrJ (jLookup args "nodeType") (J.str "unknown")),
    ("workflowNodeType", jsOrJ (jLookup args "nodeType") (J.str "unknown")),
    ("displayName", J.str "Unknown Node"),
    ("valid", J.bool false),
    ("errors", J.arr [J.obj
      [("type", J.str "config"),
       ("property", J.str "config"),
       ("message", J.str "Invalid config format - expected object"),
       ("fix", J.str "Provide config as an object with node properties")]]),
    ("warnings", J.arr []),
    ("suggestions", J.arr
      [J.str "🔧 RECOVERY: Invalid config detected. Fix with:",
       J.str "   • Ensure config is an object: \x7b \"resource\": \"...\", \"operation\": \"...\" \x7d",
       J.str "   • Use get_node to see required fields for this node type",
       J.str "   • Check if the node type is correct before configuring it"]),
    ("summary", J.obj
      [("hasErrors", J.bool true),
       ("errorCount", J.num 1),
       ("warningCount", J.num 0),
       ("suggestionCount", J.num 3)])]

/-- The `validate_node` branch of `ToolExecutionHandler.executeTool`
(part_003 lines 93-139): parameter check, the non-object-config guard,
then dispatch to the minimal or full validator (passed in as
functions). -/
def executeToolValidateNode (args : Config)
    (minimalImpl : J → J → Except String J)
    (fullImpl : J → J → J → Except String J) : Except String J :=
  match argCheck args ["nodeType", "config"] with
  | some missingParam =>
    Except.error ("Missing required parameter '" ++ missingParam ++ "' for tool 'validate_node'")
  | none =>
    let config := (jLookup args "config").getD J.null
    if !(jsTypeof config == "object") || jBeq config J.null then
      let validationMode := jsOrJ (jLookup args "mode") (J.str "full")
      if jBeq validationMode (J.str "minimal") then
        Except.ok (validateNodeFallbackMinimal args)
      else Except.ok (validateNodeFallbackFull args)
    else
      let validationMode := jsOrJ (jLookup args "mode") (J.str "full")
      if jBeq validationMode (J.str "minimal") then
        minimalImpl ((jLookup args "nodeType").getD J.null) config
      else
        fullImpl ((jLookup args "nodeType").getD J.null) config
          (jsOrJ (jLookup args "profile") J.null)

/-! ## C1: minimal validation's missing-required-field set -/

/-- The round-trip example property of the claim: `{name: "method",
required: true, displayOptions: {show: {resource: ["http"]}}}`. -/
def methodProp : NodeProperty :=
  { name := "method"
    displayName := ""
    required := true
    displayOptions := some
      { showConds := some [("resource", CondSpec.list [J.str "http"])] } }

/-- C1 (amended): the loop of `validateNodeMinimal` reports exactly the
required properties that are visible under the working config (no
`displayOptions`, or `isPropertyVisible` under the `@version`-augmented
config — where a config-supplied `@version` key takes precedence over the
injected node version) and whose name is not a key of the original
config, each named by `displayName` falling back to `name`; and the
claim's round-trip example behaves as stated. -/
theorem C1_minimal_missing_fields_amended (props : List NodeProperty)
    (config : Config) (version : Option J) :
    collectMissing props config version =
      (props.filter (fun p => p.required &&
        (!(p.displayOptions.isSome) ||
          isPropertyVisible p (configWithVersion config version)) &&
        !(jLookup config p.name).isSome)).map (fun p => jsOrStr p.displayName p.name) ∧
    collectMissing [methodProp] [("resource", J.str "other")] none = [] ∧
    collectMissing [methodProp] [("resource", J.str "http")] none = ["method"] := by
  refine ⟨?_, by decide, by decide⟩
  induction props with
  | nil => rfl
  | cons p rest ih =>
    cases hr : p.required <;>
    cases hdo : p.displayOptions.isSome <;>
    cases hv : isPropertyVisible p (configWithVersion config version) <;>
    cases hm : (jLookup config p.name).isSome <;>
      simp only [collectMissing, List.filter_cons, hr, hdo, hv, hm, ih,
        Bool.not_true, Bool.not_false, Bool.true_and, Bool.false_and,
        Bool.and_true, Bool.and_false, Bool.or_true, Bool.or_false,
        Bool.true_or, Bool.false_or, Bool.false_eq_true, Bool.true_eq_false,
        eq_self_iff_true, if_true, if_false, ite_true, ite_false, List.map_cons]

/-- C1 counterexample: with a config that itself contains `@version`, the
claim's working config (`@version` set to the node's version) predicts a
different result than the code (whose spread lets the config's
`@version` win).  Property `x` requires `@version ∈ [99]`; the node's
version is 1 but the config carries `@version: 99`: the code reports
`x` as missing, the claim predicts no report. -/
def c1Prop : NodeProperty :=
  { name := "x"
    displayName := "X"
    required := true
    displayOptions := some
      { showConds := some [("@version", CondSpec.list [J.num 99])] } }

theorem C1_counterexample_version_override :
    collectMissing [c1Prop] [("@version", J.num 99)] (some (J.num 1)) = ["X"] ∧
    claimMissingRequired [c1Prop] [("@version", J.num 99)] (some (J.num 1)) = [] ∧
    (["X"] : List String) ≠ [] := by
  refine ⟨by decide, by decide, by decide⟩

/-! ## C2: `valid` iff no error-severity findings -/

/-- C2: minimal validation's `valid` is true exactly when
`missingRequiredFields` is empty, and the workflow-validation handler's
`valid` is true exactly when its `errors` list is empty — on the three
input-shape gates unconditionally, and on the main path whenever the
inner `WorkflowValidator` (spec-modelled, not among the repository files)
maintains the same invariant.  Warnings and suggestions play no role in
either equivalence. -/
theorem C2_valid_iff_no_errors :
    (∀ (env : LookupEnv) (nodeType : String) (config : Config) (res : MinimalResult),
      validateNodeMinimal env nodeType config = Except.ok res →
      (res.valid = true ↔ res.missingRequiredFields = [])) ∧
    (∀ (workflow : J) (inner : J → WfResult) (exampleStr : String),
      (∀ wf, (inner wf).valid = true ↔ (inner wf).errors = []) →
      ∃ (b : Bool) (errs : List J),
        jGet (validateWorkflowHandler workflow inner exampleStr) "valid" =
          some (J.bool b) ∧
        jGet (validateWorkflowHandler workflow inner exampleStr) "errors" =
          some (J.arr errs) ∧
        (b = true ↔ errs = [])) := by
  constructor
  · intro env nodeType config res h
    unfold validateNodeMinimal at h
    cases hres : resolveNode env nodeType with
    | none => rw [hres] at h; exact absurd h (by simp)
    | some node =>
      rw [hres] at h
      have hr := Except.ok.inj h
      subst hr
      simp [List.length_eq_zero]
  · intro workflow inner exampleStr hinner
    by_cases h1 : (jsFalsy workflow || !(jsTypeof workflow == "object")) = true
    · refine ⟨false, [J.obj [("node", J.str "workflow"),
          ("message", J.str "Workflow must be an object with nodes and connections"),
          ("details", J.str ("Expected format: " ++ exampleStr))]], ?_, ?_, ?_⟩ <;>
        simp [validateWorkflowHandler, h1, jGet, jLookup, List.lookup]
    · have h1' : (jsFalsy workflow || !(jsTypeof workflow == "object")) = false := by
        simpa using h1
      by_cases h2 : (match jGet workflow "nodes" with
          | some (J.arr _) => true
          | _ => false) = true
      · by_cases h3 : (match jGet workflow "connections" with
            | some (J.obj _) => true
            | some (J.arr _) => true
            | _ => false) = true
        · have e1 : ¬ ((jsFalsy workflow || !(jsTypeof workflow == "object")) = true) := by
            simp [h1']
          have e2 : ¬ ((!(match jGet workflow "nodes" with
              | some (J.arr _) => true
              | _ => false)) = true) := by simp [h2]
          have e3 : ¬ ((!(match jGet workflow "connections" with
              | some (J.obj _) => true
              | some (J.arr _) => true
              | _ => false)) = true) := by simp [h3]
          refine ⟨(inner workflow).valid, (inner workflow).errors.map wfIssueJ, ?_, ?_, ?_⟩
          · unfold validateWorkflowHandler
            rw [if_neg e1, if_neg e2, if_neg e3]
            simp [jGet, jLookup, List.lookup]
          · unfold validateWorkflowHandler
            rw [if_neg e1, if_neg e2, if_neg e3]
            simp [jGet, jLookup, List.lookup]
          · rw [hinner workflow]
            simp
        · have h3' := (by simpa using h3 : (match jGet workflow "connections" with
            | some (J.obj _) => true
            | some (J.arr _) => true
            | _ => false) = false)
          have e1 : ¬ ((jsFalsy workflow || !(jsTypeof workflow == "object")) = true) := by
            simp [h1']
          have e2 : ¬ ((!(match jGet workflow "nodes" with
              | some (J.arr _) => true
              | _ => false)) = true) := by simp [h2]
          have e3 : ((!(match jGet workflow "connections" with
              | some (J.obj _) => true
              | some (J.arr _) => true
              | _ => false)) = true) := by simp [h3']
          refine ⟨false, [J.obj [("node", J.str "workflow"),
              ("message", J.str "Workflow must have a connections object"),
              ("details", J.str ("Expected: workflow.connections = \x7b\x7d (can be empty object). " ++ exampleStr))]], ?_, ?_, ?_⟩ <;>
            first
              | (unfold validateWorkflowHandler
                 rw [if_neg e1, if_neg e2, if_pos e3]
                 simp [jGet, jLookup, List.lookup])
              | simp
      · have h2' := (by simpa using h2 : (match jGet workflow "nodes" with
          | some (J.arr _) => true
          | _ => false) = false)
        have e1 : ¬ ((jsFalsy workflow || !(jsTypeof workflow == "object")) = true) := by
          simp [h1']
        have e2 : ((!(match jGet workflow "nodes" with
            | some (J.arr _) => true
            | _ => false)) = true) := by simp [h2']
        refine ⟨false, [J.obj [("node", J.str "workflow"),
            ("message", J.str "Workflow must have a nodes array"),
            ("details", J.str ("Expected: workflow.nodes = [array of node objects]. " ++ exampleStr))]], ?_, ?_, ?_⟩ <;>
          first
            | (unfold validateWorkflowHandler
               rw [if_neg e1, if_pos e2]
               simp [jGet, jLookup, List.lookup])
            | simp

def c2Node : RepoNode :=
  { nodeType := "nodes-base.test", displayName := "Test" }

def c2Env : LookupEnv :=
  { repo := fun s => if s == "nodes-base.test" then some c2Node else none
    normalize := fun s => s
    alternatives := fun _ => [] }

def c2Workflow : J :=
  J.obj [("nodes", J.arr []), ("connections", J.obj [])]

def c2Inner : J → WfResult :=
  fun _ => { valid := true, errors := [], warnings := [], suggestions := [],
             statistics := {} }

/-- Witness for C2 at a concrete repository, node and workflow. -/
theorem C2_valid_iff_no_errors_witness :
    (∃ res, validateNodeMinimal c2Env "nodes-base.test" [] = Except.ok res ∧
      (res.valid = true ↔ res.missingRequiredFields = [])) ∧
    (∃ (b : Bool) (errs : List J),
      jGet (validateWorkflowHandler c2Workflow c2Inner "ex") "valid" = some (J.bool b) ∧
      jGet (validateWorkflowHandler c2Workflow c2Inner "ex") "errors" = some (J.arr errs) ∧
      (b = true ↔ errs = [])) := by
  constructor
  · refine ⟨_, rfl, ?_⟩
    exact C2_valid_iff_no_errors.1 c2Env "nodes-base.test" [] _ rfl
  · exact C2_valid_iff_no_errors.2 c2Workflow c2Inner "ex"
      (fun wf => by constructor <;> intro _ <;> rfl)

/-! ## C9: lookup-miss errors -/

theorem firstFound_eq_none (repo : String → Option RepoNode) (l : List String)
    (h : ∀ a ∈ l, repo a = none) : firstFound repo l = none := by
  induction l with
  | nil => rfl
  | cons a rest ih =>
    unfold firstFound
    rw [h a (by simp)]
    exact ih (fun b hb => h b (by simp [hb]))

theorem resolveNode_eq_none (env : LookupEnv) (nodeType : String)
    (h1 : env.repo (env.normalize nodeType) = none)
    (h2 : env.repo nodeType = none)
    (h3 : ∀ alt ∈ env.alternatives (env.normalize nodeType), env.repo alt = none) :
    resolveNode env nodeType = none := by
  have hf : firstFound env.repo (env.alternatives (env.normalize nodeType)) = none :=
    firstFound_eq_none _ _ h3
  unfold resolveNode
  by_cases hb : (env.normalize nodeType == nodeType) = true
  · simp [h1, hb, hf]
  · simp only [Bool.not_eq_true] at hb
    simp [h1, hb, h2, hf]

/-- C9: whenever the repository misses the normalized type, the original
type, and every alternative identifier, all four lookup-based operations
(full config validation, minimal validation, property search, node info)
return the error `Node <type> not found`; and whenever the alternate-identifier
resolution finds a node, all four return a structured `ok` result and never
raise. -/
theorem C9_lookup_miss_errors (env : LookupEnv) (nodeType : String) :
    ((env.repo (env.normalize nodeType) = none ∧ env.repo nodeType = none ∧
      ∀ alt ∈ env.alternatives (env.normalize nodeType), env.repo alt = none) →
      (∀ vWM config mode profile,
        validateNodeConfig env vWM nodeType config mode profile =
          Except.error ("Node " ++ nodeType ++ " not found")) ∧
      (∀ config, validateNodeMinimal env nodeType config =
          Except.error ("Node " ++ nodeType ++ " not found")) ∧
      (∀ searchProps query maxResults,
        searchNodeProperties env searchProps nodeType query maxResults =
          Except.error ("Node " ++ nodeType ++ " not found")) ∧
      getNodeInfo env nodeType = Except.error ("Node " ++ nodeType ++ " not found")) ∧
    (∀ node, resolveNode env nodeType = some node →
      (∀ vWM config mode profile, ∃ j,
        validateNodeConfig env vWM nodeType config mode profile = Except.ok j) ∧
      (∀ config, ∃ r, validateNodeMinimal env nodeType config = Except.ok r) ∧
      (∀ searchProps query maxResults, ∃ j,
        searchNodeProperties env searchProps nodeType query maxResults = Except.ok j) ∧
      (∃ j, getNodeInfo env nodeType = Except.ok j)) := by
  constructor
  · rintro ⟨h1, h2, h3⟩
    have hr : resolveNode env nodeType = none := resolveNode_eq_none env nodeType h1 h2 h3
    refine ⟨?_, ?_, ?_, ?_⟩
    · intro vWM config mode profile
      unfold validateNodeConfig
      rw [hr]
    · intro config
      unfold validateNodeMinimal
      rw [hr]
    · intro searchProps query maxResults
      unfold searchNodeProperties
      rw [hr]
    · unfold getNodeInfo
      rw [hr]
  · intro node hr
    refine ⟨?_, ?_, ?_, ?_⟩
    · intro vWM config mode profile
      unfold validateNodeConfig
      rw [hr]
      exact ⟨_, rfl⟩
    · intro config
      unfold validateNodeMinimal
      rw [hr]
      exact ⟨_, rfl⟩
    · intro searchProps query maxResults
      unfold searchNodeProperties
      rw [hr]
      exact ⟨_, rfl⟩
    · unfold getNodeInfo
      rw [hr]
      exact ⟨_, rfl⟩

def c9Node : RepoNode :=
  { nodeType := "nodes-base.test", displayName := "Test" }

def c9Env : LookupEnv :=
  { repo := fun s => if s == "nodes-base.test" then some c9Node else none
    normalize := fun s => s
    alternatives := fun _ => [] }

/-- Witness for C9: a repository knowing only `nodes-base.test` errors on
`ghost` and succeeds on `nodes-base.test`. -/
theorem C9_lookup_miss_errors_witness :
    validateNodeMinimal c9Env "ghost" [] = Except.error "Node ghost not found" ∧
    getNodeInfo c9Env "ghost" = Except.error "Node ghost not found" ∧
    (∃ r, validateNodeMinimal c9Env "nodes-base.test" [] = Except.ok r) ∧
    (∃ j, getNodeInfo c9Env "nodes-base.test" = Except.ok j) := by
  have hmiss := (C9_lookup_miss_errors c9Env "ghost").1
    ⟨rfl, rfl, fun alt h => absurd h (List.not_mem_nil alt)⟩
  have hhit := (C9_lookup_miss_errors c9Env "nodes-base.test").2 c9Node rfl
  exact ⟨hmiss.2.1 [], hmiss.2.2.2, hhit.2.1 [], hhit.2.2.2⟩

/-! ## C10: the validate_node branch on a non-object config -/

def c10Args : Config := [("nodeType", J.str "nodes-base.test"), ("config", J.null)]

/-- C10 counterexample: a `null` config does not get the structured
fallback — `validateToolParams` treats `null` like a missing parameter and
the branch throws `Missing required parameter 'config' for tool
'validate_node'` before the non-object guard is reached, whatever the
validators would do. -/
theorem C10_counterexample_null_config :
    executeToolValidateNode c10Args (fun _ _ => Except.ok J.null)
        (fun _ _ _ => Except.ok J.null) =
      Except.error "Missing required parameter 'config' for tool 'validate_node'" := rfl

theorem argCheck_cons_of_some (args : Config) (p : String) (rest : List String)
    (v : J) (hv : jLookup args p = some v) (hn : v ≠ J.null) :
    argCheck args (p :: rest) = argCheck args rest := by
  cases v with
  | null => exact absurd rfl hn
  | bool b => simp [argCheck, hv]
  | num q => simp [argCheck, hv]
  | str s => simp [argCheck, hv]
  | arr xs => simp [argCheck, hv]
  | obj fs => simp [argCheck, hv]

/-- C10 (amended): when the `config` argument is present but its JS type is
not "object" — which excludes `null`, whose typeof is "object" and which is
instead rejected by the parameter check — and `nodeType` is present and
non-null, the branch returns a structured fallback that is independent of
both validators and raises nothing: in minimal mode the
`{nodeType, displayName, valid, missingRequiredFields}` object, otherwise
the full fallback; the minimal fallback has `valid = false` and a
`missingRequiredFields` list, the full fallback has `valid = false`,
exactly one error finding of type "config" and an empty warnings list. -/
theorem C10_nonobject_config_amended (args : Config) (nt c : J)
    (hnt : jLookup args "nodeType" = some nt) (hntn : nt ≠ J.null)
    (hc : jLookup args "config" = some c)
    (hobj : (jsTypeof c == "object") = false) :
    (∀ m2 m3,
      executeToolValidateNode args m2 m3 =
        (if jBeq (jsOrJ (jLookup args "mode") (J.str "full")) (J.str "minimal") then
          Except.ok (validateNodeFallbackMinimal args)
        else Except.ok (validateNodeFallbackFull args))) ∧
    jGet (validateNodeFallbackMinimal args) "valid" = some (J.bool false) ∧
    (∃ miss, jGet (validateNodeFallbackMinimal args) "missingRequiredFields" =
      some (J.arr miss)) ∧
    jGet (validateNodeFallbackFull args) "valid" = some (J.bool false) ∧
    jGet (validateNodeFallbackFull args) "errors" =
      some (J.arr [J.obj
        [("type", J.str "config"),
         ("property", J.str "config"),
         ("message", J.str "Invalid config format - expected object"),
         ("fix", J.str "Provide config as an object with node properties")]]) ∧
    jGet (validateNodeFallbackFull args) "warnings" = some (J.arr []) := by
  have hcn : c ≠ J.null := by
    intro h
    subst h
    exact absurd hobj (by simp [jsTypeof])
  have hac : argCheck args ["nodeType", "config"] = none := by
    rw [argCheck_cons_of_some args "nodeType" _ nt hnt hntn,
        argCheck_cons_of_some args "config" _ c hc hcn]
    rfl
  refine ⟨?_, rfl, ⟨_, rfl⟩, rfl, rfl, rfl⟩
  intro m2 m3
  unfold executeToolValidateNode
  rw [hac]
  simp only [hc, Option.getD_some]
  have hguard : (!(jsTypeof c == "object") || jBeq c J.null) = true := by
    simp [hobj]
  rw [if_pos hguard]

def c10wArgs : Config := [("nodeType", J.str "nodes-base.test"), ("config", J.str "oops")]

/-- Witness for C10 at a concrete string-valued config. -/
theorem C10_nonobject_config_amended_witness :
    (executeToolValidateNode c10wArgs (fun _ _ => Except.error "boom")
        (fun _ _ _ => Except.error "boom") =
      (if jBeq (jsOrJ (jLookup c10wArgs "mode") (J.str "full")) (J.str "minimal") then
        Except.ok (validateNodeFallbackMinimal c10wArgs)
      else Except.ok (validateNodeFallbackFull c10wArgs))) ∧
    jGet (validateNodeFallbackFull c10wArgs) "valid" = some (J.bool false) ∧
    jGet (validateNodeFallbackFull c10wArgs) "warnings" = some (J.arr []) := by
  have h := C10_nonobject_config_amended c10wArgs (J.str "nodes-base.test")
    (J.str "oops") rfl (fun hh => J.noConfusion hh) rfl rfl
  exact ⟨h.1 _ _, h.2.2.2.1, h.2.2.2.2.2⟩
